import Mathlib

/-!
EEncoder: a polled rotary encoder with push-button

A shallow embedding of `src/EEncoder.h` / `src/EEncoder.cpp` and theorems about it.

Modelling conventions
* The object is the record `EEncoder`; every member function is a pure function on it.
* The two platform services the code consumes, `digitalRead` and `millis`, are the record
  `Platform`: what one call of `update()` sees.  Each pin is read once per call, so the pin
  levels are one function of the pin number.  `millis()` is called at five places (line 97
  in `readEncoder`, lines 161, 165, 172 and 190 in `readButton`), each at most once per call
  of `update()`, and the clock may advance between them (the press handler runs between lines
  172 and 190), so `Platform` holds one clock value per place.
* `uintN_t` values are `Nat`, `int8_t` is `Int`; the unsigned 32-bit subtraction is `sub32`
  and the conversion back to `int8_t` is `wrap8`.
* A handler slot is `true` when a handler is registered (non-null).  Calling a handler is
  recorded as an `Event`; a rotation event carries the value `getIncrement()` returns at the
  moment of the call.  Handlers are observers: they do not call back into the object.
-/

namespace EEncoder

/-- Arduino `HIGH`. -/
abbrev HIGH : Bool := true

/-- Arduino `LOW`. -/
abbrev LOW : Bool := false

/-- Header constant `DEFAULT_DEBOUNCE_MS`. -/
abbrev DEFAULT_DEBOUNCE_MS : Nat := 10

/-- Header constant `DEFAULT_LONG_PRESS_MS`. -/
abbrev DEFAULT_LONG_PRESS_MS : Nat := 500

/-- Header constant `ACCELERATION_THRESHOLD_MS`. -/
abbrev ACCELERATION_THRESHOLD_MS : Nat := 100

/-- Header constant `DEFAULT_ACCELERATION_RATE`. -/
abbrev DEFAULT_ACCELERATION_RATE : Nat := 5

/-- Unsigned 32-bit subtraction `a - b` as the hardware computes it. -/
def sub32 (a b : Nat) : Nat :=
  (a % 4294967296 + (4294967296 - b % 4294967296)) % 4294967296

/-- Conversion of an `int` to `int8_t` (two's complement wrap). -/
def wrap8 (x : Int) : Int :=
  (x + 128) % 256 - 128

/-- What one call of `update()` sees of the platform. -/
structure Platform where
  /-- Level returned by `digitalRead(pin)`. -/
  digitalRead : Nat → Bool
  /-- Value returned by `millis()` in `readEncoder` (line 97). -/
  millis : Nat
  /-- Value returned by `millis()` when the raw button level changed (line 161). -/
  millisChange : Nat
  /-- Value returned by `millis()` in the button debounce test (line 165). -/
  millisDebounce : Nat
  /-- Value returned by `millis()` when a press is committed (line 172). -/
  millisPress : Nat
  /-- Value returned by `millis()` in the long-press test (line 190). -/
  millisLongPress : Nat

/-- A handler invocation. -/
inductive Event where
  /-- The call `_encoderCallback(*this)`, with the value of `getIncrement()` at the call. -/
  | rotation (increment : Int)
  /-- The call `_buttonCallback(*this)`. -/
  | press
  /-- The call `_longPressCallback(*this)`. -/
  | longPress
  deriving DecidableEq, Repr

end EEncoder

/-- The data members of `class EEncoder`. -/
structure EEncoder where
  _pinA : Nat
  _pinB : Nat
  _buttonPin : Nat
  _hasButton : Bool
  _lastEncoderState : Nat
  _encoderState : Nat
  _increment : Int
  _buttonState : Bool
  _lastButtonState : Bool
  _buttonStateChangeTime : Nat
  _buttonPressTime : Nat
  _longPressHandled : Bool
  _debounceInterval : Nat
  _lastEncoderTime : Nat
  _longPressDuration : Nat
  _accelerationEnabled : Bool
  _accelerationRate : Nat
  _lastRotationTime : Nat
  _encoderCallback : Bool
  _buttonCallback : Bool
  _longPressCallback : Bool
  _enabled : Bool
  deriving DecidableEq, Repr

namespace EEncoder

/-- Member `EEncoder::getEncoderState`: pin A in bit 1, pin B in bit 0. -/
def getEncoderState (s : EEncoder) (io : Platform) : Nat :=
  (((io.digitalRead s._pinA).toNat <<< 1) ||| (io.digitalRead s._pinB).toNat) % 256

/-- The `switch (combined)` of `readEncoder`. -/
def decodeIncrement (combined : Nat) : Int :=
  match combined with
  | 0b0001 => 1
  | 0b0111 => 1
  | 0b1110 => 1
  | 0b1000 => 1
  | 0b0010 => -1
  | 0b1011 => -1
  | 0b1101 => -1
  | 0b0100 => -1
  | _ => 0

/-- The local `combined` of `readEncoder`: `(_lastEncoderState << 2) | _encoderState`
as a `uint8_t`. -/
def combined (lastEncoderState encoderState : Nat) : Nat :=
  ((lastEncoderState <<< 2) ||| encoderState) % 256

/-- The acceleration block of `readEncoder` (lines 131-141). -/
def applyAcceleration (s : EEncoder) (currentTime : Nat) : EEncoder :=
  if s._increment ≠ 0 ∧ s._accelerationEnabled = true then
    let timeSinceLastRotation := sub32 currentTime s._lastRotationTime
    let s1 :=
      if timeSinceLastRotation < ACCELERATION_THRESHOLD_MS then
        { s with _increment := wrap8 (s._increment * (s._accelerationRate : Int)) }
      else s
    { s1 with _lastRotationTime := currentTime }
  else s

/-- Member `EEncoder::readEncoder`. -/
def readEncoder (s : EEncoder) (io : Platform) : EEncoder × List Event :=
  let s0 := { s with _encoderState := getEncoderState s io }
  if s0._encoderState ≠ s0._lastEncoderState then
    let currentTime := io.millis
    let r : EEncoder × List Event :=
      if sub32 currentTime s0._lastEncoderTime ≥ s0._debounceInterval then
        let s1 := { s0 with
          _increment := decodeIncrement (combined s0._lastEncoderState s0._encoderState) }
        let s2 := applyAcceleration s1 currentTime
        let fired : List Event :=
          if s2._increment ≠ 0 ∧ s2._encoderCallback = true then
            [Event.rotation s2._increment]
          else []
        ({ s2 with _lastEncoderTime := currentTime }, fired)
      else (s0, [])
    ({ r.1 with _lastEncoderState := r.1._encoderState }, r.2)
  else (s0, [])

/-- The debounce block of `readButton` (lines 164-186); `debounceNow` is the clock value read
at line 165 and `pressNow` the one read at line 172. -/
def commitButton (s : EEncoder) (currentState : Bool) (debounceNow pressNow : Nat) :
    EEncoder × List Event :=
  if sub32 debounceNow s._buttonStateChangeTime ≥ s._debounceInterval then
    if currentState ≠ s._buttonState then
      let s1 := { s with _buttonState := currentState }
      if s1._buttonState = LOW then
        ({ s1 with _buttonPressTime := pressNow, _longPressHandled := false },
          if s1._buttonCallback = true then [Event.press] else [])
      else
        ({ s1 with _longPressHandled := false }, [])
    else (s, [])
  else (s, [])

/-- The long-press block of `readButton` (lines 188-194). -/
def checkLongPress (s : EEncoder) (now : Nat) : EEncoder × List Event :=
  if s._buttonState = LOW ∧ s._longPressHandled = false ∧ s._longPressCallback = true then
    if sub32 now s._buttonPressTime ≥ s._longPressDuration then
      ({ s with _longPressHandled := true }, [Event.longPress])
    else (s, [])
  else (s, [])

/-- The raw-change block of `readButton` (lines 159-162). -/
def restartDebounce (s : EEncoder) (currentState : Bool) (now : Nat) : EEncoder :=
  if currentState ≠ s._lastButtonState then
    { s with _buttonStateChangeTime := now }
  else s

/-- Member `EEncoder::readButton`. -/
def readButton (s : EEncoder) (io : Platform) : EEncoder × List Event :=
  let currentState := io.digitalRead s._buttonPin
  let s0 := restartDebounce s currentState io.millisChange
  let r1 := commitButton s0 currentState io.millisDebounce io.millisPress
  let r2 := checkLongPress r1.1 io.millisLongPress
  ({ r2.1 with _lastButtonState := currentState }, r1.2 ++ r2.2)

/-- Member `EEncoder::update`: the new state and the handlers called, in call order. -/
def update (s : EEncoder) (io : Platform) : EEncoder × List Event :=
  if s._enabled = false then (s, [])
  else
    let r := readEncoder s io
    if r.1._hasButton = true then
      let b := readButton r.1 io
      (b.1, r.2 ++ b.2)
    else r

/-- Member `EEncoder::getIncrement`. -/
def getIncrement (s : EEncoder) : Int := s._increment

/-- Member `EEncoder::isEnabled`. -/
def isEnabled (s : EEncoder) : Bool := s._enabled

/-- Member `EEncoder::setEncoderHandler`; `false` is `nullptr`. -/
def setEncoderHandler (s : EEncoder) (callback : Bool) : EEncoder :=
  { s with _encoderCallback := callback }

/-- Member `EEncoder::setButtonHandler`; `false` is `nullptr`. -/
def setButtonHandler (s : EEncoder) (callback : Bool) : EEncoder :=
  { s with _buttonCallback := callback }

/-- Member `EEncoder::setLongPressHandler`; `false` is `nullptr`. -/
def setLongPressHandler (s : EEncoder) (callback : Bool) : EEncoder :=
  { s with _longPressCallback := callback }

/-- Member `EEncoder::setDebounceInterval(uint16_t)`. -/
def setDebounceInterval (s : EEncoder) (intervalMs : Nat) : EEncoder :=
  { s with _debounceInterval := intervalMs % 65536 }

/-- Member `EEncoder::setLongPressDuration(uint16_t)`. -/
def setLongPressDuration (s : EEncoder) (durationMs : Nat) : EEncoder :=
  { s with _longPressDuration := durationMs % 65536 }

/-- Member `EEncoder::setAcceleration`. -/
def setAcceleration (s : EEncoder) (enabled : Bool) : EEncoder :=
  { s with _accelerationEnabled := enabled }

/-- Member `EEncoder::setAccelerationRate(uint8_t)`. -/
def setAccelerationRate (s : EEncoder) (rate : Nat) : EEncoder :=
  { s with _accelerationRate := rate % 256 }

/-- Member `EEncoder::enable`. -/
def enable (s : EEncoder) (enabled : Bool) : EEncoder :=
  let s1 := { s with _enabled := enabled }
  if s1._enabled = false then { s1 with _increment := 0 } else s1

/-- The member initialiser list shared by both constructors, before the body runs. -/
def initialised (pinA pinB buttonPin : Nat) (hasButton : Bool) : EEncoder where
  _pinA := pinA % 256
  _pinB := pinB % 256
  _buttonPin := buttonPin % 256
  _hasButton := hasButton
  _lastEncoderState := 0
  _encoderState := 0
  _increment := 0
  _buttonState := HIGH
  _lastButtonState := HIGH
  _buttonStateChangeTime := 0
  _buttonPressTime := 0
  _longPressHandled := false
  _debounceInterval := DEFAULT_DEBOUNCE_MS
  _lastEncoderTime := 0
  _longPressDuration := DEFAULT_LONG_PRESS_MS
  _accelerationEnabled := false
  _accelerationRate := DEFAULT_ACCELERATION_RATE
  _lastRotationTime := 0
  _encoderCallback := false
  _buttonCallback := false
  _longPressCallback := false
  _enabled := true

/-- Member `EEncoder::EEncoder(pinA, pinB, buttonPin)`; `io` is the platform at construction. -/
def withButton (pinA pinB buttonPin : Nat) (io : Platform) : EEncoder :=
  let s := initialised pinA pinB buttonPin true
  { s with _lastEncoderState := getEncoderState s io }

/-- Member `EEncoder::EEncoder(pinA, pinB)`; `io` is the platform at construction. -/
def withoutButton (pinA pinB : Nat) (io : Platform) : EEncoder :=
  let s := initialised pinA pinB 0 false
  { s with _lastEncoderState := getEncoderState s io }

/-- State after a sequence of `update()` calls. -/
def runUpdates (s : EEncoder) : List Platform → EEncoder
  | [] => s
  | io :: ios => runUpdates (update s io).1 ios

/-- The handlers called by each `update()` of a sequence, one list per call. -/
def updateLog (s : EEncoder) : List Platform → List (List Event)
  | [] => []
  | io :: ios => (update s io).2 :: updateLog (update s io).1 ios

/-- A platform reading during which the clock does not advance: rotation sample `(a, b)` on
pins 2 and 3, button level on pin 4, every `millis()` call returning `now`. -/
def reading (a b button : Bool) (now : Nat) : Platform where
  digitalRead := fun pin => if pin = 2 then a else if pin = 3 then b else button
  millis := now
  millisChange := now
  millisDebounce := now
  millisPress := now
  millisLongPress := now

/-- A platform reading during which the clock advances: pins as in `reading`, and the values
`millis()` returns at lines 97, 161, 165, 172 and 190 in turn. -/
def readingTicks (a b button : Bool) (now change debounce press longPress : Nat) :
    Platform where
  digitalRead := fun pin => if pin = 2 then a else if pin = 3 then b else button
  millis := now
  millisChange := change
  millisDebounce := debounce
  millisPress := press
  millisLongPress := longPress

/-- States the public interface can produce: a constructor followed by any calls of
`update()`, `enable()`, the setters and the handler registrations. -/
inductive Reachable : EEncoder → Prop where
  | withButton (pinA pinB buttonPin : Nat) (io : Platform) :
      Reachable (withButton pinA pinB buttonPin io)
  | withoutButton (pinA pinB : Nat) (io : Platform) :
      Reachable (withoutButton pinA pinB io)
  | update (s : EEncoder) (io : Platform) : Reachable s → Reachable (update s io).1
  | enable (s : EEncoder) (enabled : Bool) : Reachable s → Reachable (enable s enabled)
  | setEncoderHandler (s : EEncoder) (callback : Bool) :
      Reachable s → Reachable (setEncoderHandler s callback)
  | setButtonHandler (s : EEncoder) (callback : Bool) :
      Reachable s → Reachable (setButtonHandler s callback)
  | setLongPressHandler (s : EEncoder) (callback : Bool) :
      Reachable s → Reachable (setLongPressHandler s callback)
  | setDebounceInterval (s : EEncoder) (intervalMs : Nat) :
      Reachable s → Reachable (setDebounceInterval s intervalMs)
  | setLongPressDuration (s : EEncoder) (durationMs : Nat) :
      Reachable s → Reachable (setLongPressDuration s durationMs)
  | setAcceleration (s : EEncoder) (enabled : Bool) :
      Reachable s → Reachable (setAcceleration s enabled)
  | setAccelerationRate (s : EEncoder) (rate : Nat) :
      Reachable s → Reachable (setAccelerationRate s rate)

/-- The rotation-handler calls among the handlers called. -/
def rotationEvents (es : List Event) : List Event :=
  es.filter fun e => match e with
    | Event.rotation _ => true
    | _ => false

/-- One call of the public interface. -/
inductive Call where
  | update (io : Platform)
  | enable (enabled : Bool)
  | setEncoderHandler (callback : Bool)
  | setButtonHandler (callback : Bool)
  | setLongPressHandler (callback : Bool)
  | setDebounceInterval (intervalMs : Nat)
  | setLongPressDuration (durationMs : Nat)
  | setAcceleration (enabled : Bool)
  | setAccelerationRate (rate : Nat)

/-- The state after one call of the public interface. -/
def call (s : EEncoder) : Call → EEncoder
  | Call.update io => (update s io).1
  | Call.enable enabled => enable s enabled
  | Call.setEncoderHandler callback => setEncoderHandler s callback
  | Call.setButtonHandler callback => setButtonHandler s callback
  | Call.setLongPressHandler callback => setLongPressHandler s callback
  | Call.setDebounceInterval intervalMs => setDebounceInterval s intervalMs
  | Call.setLongPressDuration durationMs => setLongPressDuration s durationMs
  | Call.setAcceleration enabled => setAcceleration s enabled
  | Call.setAccelerationRate rate => setAccelerationRate s rate

/-- The state after a sequence of calls of the public interface. -/
def calls (s : EEncoder) : List Call → EEncoder
  | [] => s
  | c :: cs => calls (call s c) cs

/-- The clock values at the `update()` calls of a sequence, in call order. -/
def clockReadings : List Call → List Nat
  | [] => []
  | Call.update io :: cs => io.millis :: clockReadings cs
  | _ :: cs => clockReadings cs

/-- All button state of an instance: debounced level, last raw level, debounce anchor,
press-onset time and long-press flag. -/
def buttonFields (s : EEncoder) : Bool × Bool × Nat × Nat × Bool :=
  (s._buttonState, s._lastButtonState, s._buttonStateChangeTime, s._buttonPressTime,
    s._longPressHandled)

/-! ## Basic facts about one poll -/

theorem sub32_of_le (a b : Nat) (hab : b ≤ a) (ha : a < 4294967296) : sub32 a b = a - b := by
  unfold sub32; omega

theorem sub32_self (a : Nat) : sub32 a a = 0 := by
  unfold sub32; omega

theorem readEncoder_unchanged (s : EEncoder) (io : Platform)
    (h : getEncoderState s io = s._lastEncoderState) :
    readEncoder s io = ({ s with _encoderState := getEncoderState s io }, []) := by
  simp [readEncoder, h]

theorem readEncoder_rejected (s : EEncoder) (io : Platform)
    (h : getEncoderState s io ≠ s._lastEncoderState)
    (ht : sub32 io.millis s._lastEncoderTime < s._debounceInterval) :
    readEncoder s io =
      ({ s with _encoderState := getEncoderState s io,
                _lastEncoderState := getEncoderState s io }, []) := by
  simp [readEncoder, h, Nat.not_le.mpr ht]

/-! ## Frame facts: what each half of a poll leaves alone -/

/-- The configuration of an instance: pins, settings, handler slots and the enabled flag. -/
theorem readButton_config (s : EEncoder) (io : Platform) :
    (readButton s io).1._pinA = s._pinA ∧ (readButton s io).1._pinB = s._pinB ∧
    (readButton s io).1._buttonPin = s._buttonPin ∧
    (readButton s io).1._hasButton = s._hasButton ∧
    (readButton s io).1._debounceInterval = s._debounceInterval ∧
    (readButton s io).1._longPressDuration = s._longPressDuration ∧
    (readButton s io).1._accelerationEnabled = s._accelerationEnabled ∧
    (readButton s io).1._accelerationRate = s._accelerationRate ∧
    (readButton s io).1._encoderCallback = s._encoderCallback ∧
    (readButton s io).1._buttonCallback = s._buttonCallback ∧
    (readButton s io).1._longPressCallback = s._longPressCallback ∧
    (readButton s io).1._enabled = s._enabled := by
  simp only [readButton, restartDebounce, commitButton, checkLongPress]
  split_ifs <;> simp

theorem readButton_rotation (s : EEncoder) (io : Platform) :
    (readButton s io).1._increment = s._increment ∧
    (readButton s io).1._lastEncoderState = s._lastEncoderState ∧
    (readButton s io).1._encoderState = s._encoderState ∧
    (readButton s io).1._lastEncoderTime = s._lastEncoderTime ∧
    (readButton s io).1._lastRotationTime = s._lastRotationTime ∧
    rotationEvents (readButton s io).2 = [] := by
  simp only [readButton, restartDebounce, commitButton, checkLongPress, rotationEvents]
  split_ifs <;> simp

theorem readEncoder_config (s : EEncoder) (io : Platform) :
    (readEncoder s io).1._pinA = s._pinA ∧ (readEncoder s io).1._pinB = s._pinB ∧
    (readEncoder s io).1._buttonPin = s._buttonPin ∧
    (readEncoder s io).1._hasButton = s._hasButton ∧
    (readEncoder s io).1._debounceInterval = s._debounceInterval ∧
    (readEncoder s io).1._longPressDuration = s._longPressDuration ∧
    (readEncoder s io).1._accelerationEnabled = s._accelerationEnabled ∧
    (readEncoder s io).1._accelerationRate = s._accelerationRate ∧
    (readEncoder s io).1._encoderCallback = s._encoderCallback ∧
    (readEncoder s io).1._buttonCallback = s._buttonCallback ∧
    (readEncoder s io).1._longPressCallback = s._longPressCallback ∧
    (readEncoder s io).1._enabled = s._enabled := by
  simp only [readEncoder, applyAcceleration]
  split_ifs <;> simp

theorem readEncoder_button (s : EEncoder) (io : Platform) :
    (readEncoder s io).1._buttonState = s._buttonState ∧
    (readEncoder s io).1._lastButtonState = s._lastButtonState ∧
    (readEncoder s io).1._buttonStateChangeTime = s._buttonStateChangeTime ∧
    (readEncoder s io).1._buttonPressTime = s._buttonPressTime ∧
    (readEncoder s io).1._longPressHandled = s._longPressHandled ∧
    (∀ e ∈ (readEncoder s io).2, e ≠ Event.press ∧ e ≠ Event.longPress) := by
  simp only [readEncoder, applyAcceleration]
  split_ifs <;> simp

theorem rotationEvents_append (xs ys : List Event) :
    rotationEvents (xs ++ ys) = rotationEvents xs ++ rotationEvents ys := by
  simp [rotationEvents]

theorem rotationEvents_readEncoder (s : EEncoder) (io : Platform) :
    rotationEvents (readEncoder s io).2 = (readEncoder s io).2 := by
  simp only [readEncoder, applyAcceleration, rotationEvents]
  split_ifs <;> simp

theorem update_disabled (s : EEncoder) (io : Platform) (h : s._enabled = false) :
    update s io = (s, []) := by
  simp [update, h]

theorem update_withButton (s : EEncoder) (io : Platform) (hen : s._enabled = true)
    (hb : s._hasButton = true) :
    update s io = ((readButton (readEncoder s io).1 io).1,
      (readEncoder s io).2 ++ (readButton (readEncoder s io).1 io).2) := by
  simp [update, hen, (readEncoder_config s io).2.2.2.1, hb]

theorem update_withoutButton (s : EEncoder) (io : Platform) (hen : s._enabled = true)
    (hb : s._hasButton = false) :
    update s io = readEncoder s io := by
  simp [update, hen, (readEncoder_config s io).2.2.2.1, hb]

/-- The rotation half of an enabled poll is `readEncoder`. -/
theorem update_rotation (s : EEncoder) (io : Platform) (hen : s._enabled = true) :
    (update s io).1._increment = (readEncoder s io).1._increment ∧
    (update s io).1._lastEncoderState = (readEncoder s io).1._lastEncoderState ∧
    (update s io).1._encoderState = (readEncoder s io).1._encoderState ∧
    (update s io).1._lastEncoderTime = (readEncoder s io).1._lastEncoderTime ∧
    (update s io).1._lastRotationTime = (readEncoder s io).1._lastRotationTime ∧
    rotationEvents (update s io).2 = (readEncoder s io).2 := by
  have hr := rotationEvents_readEncoder s io
  cases hb : s._hasButton
  · rw [update_withoutButton s io hen hb]
    simp [hr]
  · rw [update_withButton s io hen hb]
    have h := readButton_rotation (readEncoder s io).1 io
    simp [rotationEvents_append, h, hr]

theorem update_config (s : EEncoder) (io : Platform) :
    (update s io).1._pinA = s._pinA ∧ (update s io).1._pinB = s._pinB ∧
    (update s io).1._buttonPin = s._buttonPin ∧
    (update s io).1._hasButton = s._hasButton ∧
    (update s io).1._debounceInterval = s._debounceInterval ∧
    (update s io).1._longPressDuration = s._longPressDuration ∧
    (update s io).1._accelerationEnabled = s._accelerationEnabled ∧
    (update s io).1._accelerationRate = s._accelerationRate ∧
    (update s io).1._encoderCallback = s._encoderCallback ∧
    (update s io).1._buttonCallback = s._buttonCallback ∧
    (update s io).1._longPressCallback = s._longPressCallback ∧
    (update s io).1._enabled = s._enabled := by
  have he := readEncoder_config s io
  cases hen : s._enabled
  · rw [update_disabled s io hen]
    simp [hen]
  · cases hb : s._hasButton
    · rw [update_withoutButton s io hen hb]
      simpa [hen, hb] using he
    · rw [update_withButton s io hen hb]
      have h := readButton_config (readEncoder s io).1 io
      simp only [h, he, hen, hb, and_self]

theorem getEncoderState_update (s : EEncoder) (io io2 : Platform) :
    getEncoderState (update s io).1 io2 = getEncoderState s io2 := by
  have h := update_config s io
  simp [getEncoderState, h]

theorem readEncoder_accepted (s : EEncoder) (io : Platform)
    (h : getEncoderState s io ≠ s._lastEncoderState)
    (ht : s._debounceInterval ≤ sub32 io.millis s._lastEncoderTime) :
    (readEncoder s io).1._lastEncoderTime = io.millis ∧
    (readEncoder s io).1._lastEncoderState = getEncoderState s io ∧
    (readEncoder s io).1._increment =
      (applyAcceleration { s with
        _encoderState := getEncoderState s io,
        _increment := decodeIncrement (combined s._lastEncoderState (getEncoderState s io)) }
        io.millis)._increment := by
  simp only [readEncoder, applyAcceleration]
  split_ifs <;> simp_all

theorem readEncoder_accepted_eq (s : EEncoder) (io : Platform)
    (h : getEncoderState s io ≠ s._lastEncoderState)
    (ht : s._debounceInterval ≤ sub32 io.millis s._lastEncoderTime) :
    readEncoder s io =
      ({ applyAcceleration { s with
            _encoderState := getEncoderState s io,
            _increment := decodeIncrement (combined s._lastEncoderState (getEncoderState s io)) }
            io.millis with
          _lastEncoderTime := io.millis,
          _lastEncoderState := getEncoderState s io },
        if (applyAcceleration { s with
            _encoderState := getEncoderState s io,
            _increment := decodeIncrement (combined s._lastEncoderState (getEncoderState s io)) }
            io.millis)._increment ≠ 0 ∧ s._encoderCallback = true
        then [Event.rotation (applyAcceleration { s with
            _encoderState := getEncoderState s io,
            _increment := decodeIncrement (combined s._lastEncoderState (getEncoderState s io)) }
            io.millis)._increment]
        else []) := by
  simp only [readEncoder, applyAcceleration]
  split_ifs <;> simp_all

/-- An enabled poll whose changed sample is rejected by the debounce gate. -/
theorem update_rejected (s : EEncoder) (io : Platform) (hen : s._enabled = true)
    (hch : getEncoderState s io ≠ s._lastEncoderState)
    (ht : sub32 io.millis s._lastEncoderTime < s._debounceInterval) :
    (update s io).1._increment = s._increment ∧
    (update s io).1._lastEncoderState = getEncoderState s io ∧
    (update s io).1._lastEncoderTime = s._lastEncoderTime ∧
    (update s io).1._lastRotationTime = s._lastRotationTime ∧
    rotationEvents (update s io).2 = [] := by
  have hu := update_rotation s io hen
  rw [readEncoder_rejected s io hch ht] at hu
  simpa using ⟨hu.1, hu.2.1, hu.2.2.2.1, hu.2.2.2.2.1, hu.2.2.2.2.2⟩

/-- An enabled poll whose changed sample passes the debounce gate, acceleration off. -/
theorem update_accepted_plain (s : EEncoder) (io : Platform) (hen : s._enabled = true)
    (hacc : s._accelerationEnabled = false)
    (hch : getEncoderState s io ≠ s._lastEncoderState)
    (ht : s._debounceInterval ≤ sub32 io.millis s._lastEncoderTime) :
    (update s io).1._increment =
      decodeIncrement (combined s._lastEncoderState (getEncoderState s io)) ∧
    (update s io).1._lastEncoderState = getEncoderState s io ∧
    (update s io).1._lastEncoderTime = io.millis ∧
    (update s io).1._lastRotationTime = s._lastRotationTime ∧
    rotationEvents (update s io).2 =
      if decodeIncrement (combined s._lastEncoderState (getEncoderState s io)) ≠ 0 ∧
          s._encoderCallback = true
      then [Event.rotation (decodeIncrement (combined s._lastEncoderState (getEncoderState s io)))]
      else [] := by
  have hu := update_rotation s io hen
  rw [readEncoder_accepted_eq s io hch ht] at hu
  simp only [applyAcceleration, hacc] at hu
  simp at hu
  exact ⟨hu.1, hu.2.1, hu.2.2.2.1, hu.2.2.2.2.1, hu.2.2.2.2.2⟩

/-- An enabled poll whose changed sample passes the debounce gate and decodes to a step,
acceleration on. -/
theorem update_accepted_accel (s : EEncoder) (io : Platform) (hen : s._enabled = true)
    (hacc : s._accelerationEnabled = true)
    (hch : getEncoderState s io ≠ s._lastEncoderState)
    (ht : s._debounceInterval ≤ sub32 io.millis s._lastEncoderTime)
    (hstep : decodeIncrement (combined s._lastEncoderState (getEncoderState s io)) ≠ 0) :
    (update s io).1._increment =
      (if sub32 io.millis s._lastRotationTime < ACCELERATION_THRESHOLD_MS then
        wrap8 (decodeIncrement (combined s._lastEncoderState (getEncoderState s io)) *
          (s._accelerationRate : Int))
      else decodeIncrement (combined s._lastEncoderState (getEncoderState s io))) ∧
    (update s io).1._lastEncoderState = getEncoderState s io ∧
    (update s io).1._lastEncoderTime = io.millis ∧
    (update s io).1._lastRotationTime = io.millis := by
  have hu := update_rotation s io hen
  rw [readEncoder_accepted_eq s io hch ht] at hu
  simp only [applyAcceleration, hacc] at hu
  refine ⟨?_, ?_, ?_, ?_⟩
  · rw [hu.1]; split_ifs <;> simp_all
  · rw [hu.2.1]
  · rw [hu.2.2.2.1]
  · rw [hu.2.2.2.2.1]; split_ifs <;> simp_all

theorem decode_values (n : Nat) :
    decodeIncrement n = 1 ∨ decodeIncrement n = -1 ∨ decodeIncrement n = 0 := by
  unfold decodeIncrement
  split <;> simp

/-! ## The button half of a poll -/

/-- One `readButton` that reads the raw level low. -/
theorem readButton_low (u : EEncoder) (io : Platform)
    (hlow : io.digitalRead u._buttonPin = LOW) :
    (readButton u io).1._lastButtonState = LOW ∧
    (readButton u io).1._buttonStateChangeTime =
      (if u._lastButtonState = HIGH then io.millisChange else u._buttonStateChangeTime) ∧
    ((readButton u io).1._buttonState = LOW ↔
      (u._buttonState = LOW ∨ u._debounceInterval ≤ sub32 io.millisDebounce
        (if u._lastButtonState = HIGH then io.millisChange else u._buttonStateChangeTime))) ∧
    (readButton u io).2.count Event.press =
      (if u._buttonState = HIGH ∧ u._buttonCallback = true ∧
          u._debounceInterval ≤ sub32 io.millisDebounce
            (if u._lastButtonState = HIGH then io.millisChange else u._buttonStateChangeTime)
        then 1 else 0) := by
  simp only [readButton, restartDebounce, commitButton, checkLongPress, hlow]
  split_ifs <;> simp_all

theorem checkLongPress_spec (v : EEncoder) (now : Nat) :
    (checkLongPress v now).1._buttonState = v._buttonState ∧
    (checkLongPress v now).1._buttonPressTime = v._buttonPressTime ∧
    ((checkLongPress v now).1._longPressHandled = true ↔
      (v._longPressHandled = true ∨ (v._buttonState = LOW ∧ v._longPressCallback = true ∧
        v._longPressDuration ≤ sub32 now v._buttonPressTime))) ∧
    (checkLongPress v now).2.count Event.longPress =
      (if v._buttonState = LOW ∧ v._longPressHandled = false ∧ v._longPressCallback = true ∧
          v._longPressDuration ≤ sub32 now v._buttonPressTime then 1 else 0) := by
  simp only [checkLongPress]
  split_ifs <;> simp_all
  cases hf : v._longPressHandled <;> simp_all

theorem commitButton_spec (w : EEncoder) (cur : Bool) (dnow pnow : Nat)
    (hafter : (commitButton w cur dnow pnow).1._buttonState = LOW) :
    (commitButton w cur dnow pnow).1._buttonPressTime =
      (if w._buttonState = HIGH then pnow else w._buttonPressTime) ∧
    ((commitButton w cur dnow pnow).1._longPressHandled = true ↔
      (w._buttonState = LOW ∧ w._longPressHandled = true)) ∧
    (commitButton w cur dnow pnow).1._longPressCallback = w._longPressCallback ∧
    (commitButton w cur dnow pnow).1._longPressDuration = w._longPressDuration ∧
    (commitButton w cur dnow pnow).2.count Event.longPress = 0 := by
  simp only [commitButton] at hafter ⊢
  split_ifs at hafter ⊢ <;> simp_all

theorem restartDebounce_frame (u : EEncoder) (cur : Bool) (now : Nat) :
    (restartDebounce u cur now)._buttonState = u._buttonState ∧
    (restartDebounce u cur now)._buttonPressTime = u._buttonPressTime ∧
    (restartDebounce u cur now)._longPressHandled = u._longPressHandled ∧
    (restartDebounce u cur now)._longPressCallback = u._longPressCallback ∧
    (restartDebounce u cur now)._longPressDuration = u._longPressDuration := by
  simp only [restartDebounce]
  split_ifs <;> simp

/-- One `readButton` after which the debounced level is low: the hold continues, or a press
has just been committed. -/
theorem readButton_hold (u : EEncoder) (io : Platform)
    (hafter : (readButton u io).1._buttonState = LOW) :
    (readButton u io).1._buttonPressTime =
      (if u._buttonState = HIGH then io.millisPress else u._buttonPressTime) ∧
    ((readButton u io).1._longPressHandled = true ↔
      ((u._buttonState = LOW ∧ u._longPressHandled = true) ∨
        (u._longPressCallback = true ∧ u._longPressDuration ≤ sub32 io.millisLongPress
          (if u._buttonState = HIGH then io.millisPress else u._buttonPressTime)))) ∧
    (readButton u io).2.count Event.longPress =
      (if (u._buttonState = HIGH ∨ u._longPressHandled = false) ∧
          u._longPressCallback = true ∧ u._longPressDuration ≤ sub32 io.millisLongPress
            (if u._buttonState = HIGH then io.millisPress else u._buttonPressTime)
        then 1 else 0) := by
  have hw := restartDebounce_frame u (io.digitalRead u._buttonPin) io.millisChange
  have h2 := checkLongPress_spec
    (commitButton (restartDebounce u (io.digitalRead u._buttonPin) io.millisChange)
      (io.digitalRead u._buttonPin) io.millisDebounce io.millisPress).1 io.millisLongPress
  have hafter1 : (commitButton (restartDebounce u (io.digitalRead u._buttonPin)
      io.millisChange) (io.digitalRead u._buttonPin) io.millisDebounce
      io.millisPress).1._buttonState = LOW := by
    rw [← h2.1]; exact hafter
  have h1 := commitButton_spec (restartDebounce u (io.digitalRead u._buttonPin)
    io.millisChange) (io.digitalRead u._buttonPin) io.millisDebounce io.millisPress hafter1
  rw [hw.1, hw.2.1, hw.2.2.1, hw.2.2.2.1, hw.2.2.2.2] at h1
  rw [hafter1, h1.1, h1.2.2.1, h1.2.2.2.1] at h2
  refine ⟨h2.2.1, ?_, ?_⟩
  · refine Iff.trans h2.2.2.1 ?_
    rw [h1.2.1]
    simp
  · show List.count Event.longPress (_ ++ _) = _
    rw [List.count_append, h1.2.2.2.2, h2.2.2.2, Nat.zero_add]
    have hflag : ((commitButton (restartDebounce u (io.digitalRead u._buttonPin)
        io.millisChange) (io.digitalRead u._buttonPin) io.millisDebounce
        io.millisPress).1._longPressHandled = false) ↔
        (u._buttonState = HIGH ∨ u._longPressHandled = false) := by
      rw [← Bool.not_eq_true, h1.2.1]
      cases u._buttonState <;> cases u._longPressHandled <;> simp
    simp only [hflag, true_and]

theorem count_press_readEncoder (s : EEncoder) (io : Platform) :
    (readEncoder s io).2.count Event.press = 0 :=
  List.count_eq_zero.mpr fun h => ((readEncoder_button s io).2.2.2.2.2 _ h).1 rfl

theorem count_longPress_readEncoder (s : EEncoder) (io : Platform) :
    (readEncoder s io).2.count Event.longPress = 0 :=
  List.count_eq_zero.mpr fun h => ((readEncoder_button s io).2.2.2.2.2 _ h).2 rfl

/-- A poll that changes the debounced level is a poll of an enabled instance with a button. -/
theorem update_buttonState_changed (s : EEncoder) (io : Platform)
    (h : (update s io).1._buttonState ≠ s._buttonState) :
    s._enabled = true ∧ s._hasButton = true := by
  cases hen : s._enabled
  · rw [update_disabled s io hen] at h; exact absurd rfl h
  · cases hb : s._hasButton
    · rw [update_withoutButton s io hen hb, (readEncoder_button s io).1] at h
      exact absurd rfl h
    · exact ⟨rfl, rfl⟩

/-- One poll of an enabled instance with a button that reads the raw level low. -/
theorem update_low (s : EEncoder) (io : Platform) (hen : s._enabled = true)
    (hb : s._hasButton = true) (hlow : io.digitalRead s._buttonPin = LOW) :
    (update s io).1._lastButtonState = LOW ∧
    (update s io).1._buttonStateChangeTime =
      (if s._lastButtonState = HIGH then io.millisChange else s._buttonStateChangeTime) ∧
    ((update s io).1._buttonState = LOW ↔
      (s._buttonState = LOW ∨ s._debounceInterval ≤ sub32 io.millisDebounce
        (if s._lastButtonState = HIGH then io.millisChange else s._buttonStateChangeTime))) ∧
    (update s io).2.count Event.press =
      (if s._buttonState = HIGH ∧ s._buttonCallback = true ∧
          s._debounceInterval ≤ sub32 io.millisDebounce
            (if s._lastButtonState = HIGH then io.millisChange else s._buttonStateChangeTime)
        then 1 else 0) := by
  have hc := readEncoder_config s io
  have hbtn := readEncoder_button s io
  have h := readButton_low (readEncoder s io).1 io (by rw [hc.2.2.1]; exact hlow)
  rw [hbtn.1, hbtn.2.1, hbtn.2.2.1, hc.2.2.2.2.1, hc.2.2.2.2.2.2.2.2.2.1] at h
  rw [update_withButton s io hen hb]
  simp only [List.count_append, count_press_readEncoder, Nat.zero_add]
  exact h

/-- One poll of an enabled instance with a button after which the debounced level is low. -/
theorem update_hold (s : EEncoder) (io : Platform) (hen : s._enabled = true)
    (hb : s._hasButton = true) (hafter : (update s io).1._buttonState = LOW) :
    (update s io).1._buttonPressTime =
      (if s._buttonState = HIGH then io.millisPress else s._buttonPressTime) ∧
    ((update s io).1._longPressHandled = true ↔
      ((s._buttonState = LOW ∧ s._longPressHandled = true) ∨
        (s._longPressCallback = true ∧ s._longPressDuration ≤ sub32 io.millisLongPress
          (if s._buttonState = HIGH then io.millisPress else s._buttonPressTime)))) ∧
    (update s io).2.count Event.longPress =
      (if (s._buttonState = HIGH ∨ s._longPressHandled = false) ∧
          s._longPressCallback = true ∧ s._longPressDuration ≤ sub32 io.millisLongPress
            (if s._buttonState = HIGH then io.millisPress else s._buttonPressTime)
        then 1 else 0) := by
  have hc := readEncoder_config s io
  have hbtn := readEncoder_button s io
  rw [update_withButton s io hen hb] at hafter ⊢
  have h := readButton_hold (readEncoder s io).1 io hafter
  rw [hbtn.1, hbtn.2.2.2.1, hbtn.2.2.2.2.1, hc.2.2.2.2.2.1,
    hc.2.2.2.2.2.2.2.2.2.2.1] at h
  simp only [List.count_append, count_longPress_readEncoder, Nat.zero_add]
  exact h

/-- Polls that keep reading the raw level low, from a state whose last raw level is already
low: the debounce anchor stays where it is and the debounced level is low exactly when it was
low before or some poll has reached the debounce window. -/
theorem runUpdates_low (pre : List Platform) :
    ∀ u : EEncoder, u._enabled = true → u._hasButton = true → u._lastButtonState = LOW →
      (∀ q ∈ pre, q.digitalRead u._buttonPin = LOW) →
      (runUpdates u pre)._enabled = true ∧ (runUpdates u pre)._hasButton = true ∧
      (runUpdates u pre)._buttonPin = u._buttonPin ∧
      (runUpdates u pre)._debounceInterval = u._debounceInterval ∧
      (runUpdates u pre)._buttonCallback = u._buttonCallback ∧
      (runUpdates u pre)._lastButtonState = LOW ∧
      (runUpdates u pre)._buttonStateChangeTime = u._buttonStateChangeTime ∧
      ((runUpdates u pre)._buttonState = LOW ↔
        (u._buttonState = LOW ∨
          ∃ q ∈ pre,
            u._debounceInterval ≤ sub32 q.millisDebounce u._buttonStateChangeTime)) := by
  induction pre with
  | nil =>
    intro u hen hb hl _
    simp [runUpdates, hen, hb, hl]
  | cons a pre ih =>
    intro u hen hb hl hlow
    have hc := update_config u a
    have h := update_low u a hen hb (hlow a (List.mem_cons_self a pre))
    rw [hl] at h
    simp only [Bool.false_eq_true, if_false] at h
    have hrec := ih (update u a).1 (by rw [hc.2.2.2.2.2.2.2.2.2.2.2, hen])
      (by rw [hc.2.2.2.1, hb]) h.1
      (fun q hq => by rw [hc.2.2.1]; exact hlow q (List.mem_cons_of_mem a hq))
    rw [hc.2.2.1, hc.2.2.2.2.1, hc.2.2.2.2.2.2.2.2.2.1, h.2.1, h.2.2.1] at hrec
    refine ⟨hrec.1, hrec.2.1, hrec.2.2.1, hrec.2.2.2.1, hrec.2.2.2.2.1, hrec.2.2.2.2.2.1,
      hrec.2.2.2.2.2.2.1, ?_⟩
    show (runUpdates (update u a).1 pre)._buttonState = LOW ↔ _
    rw [hrec.2.2.2.2.2.2.2]
    simp only [List.mem_cons, exists_eq_or_imp, or_assoc]

/-- The press commit in terms of the 32-bit elapsed time, for any poll times. -/
theorem press_commit_elapsed (s : EEncoder) (p0 : Platform) (rest : List Platform)
    (hen : s._enabled = true) (hb : s._hasButton = true)
    (hs : s._buttonState = HIGH) (hl : s._lastButtonState = HIGH)
    (hlow : ∀ q ∈ p0 :: rest, q.digitalRead s._buttonPin = LOW)
    (pre : List Platform) (p : Platform) (post : List Platform)
    (hsplit : p0 :: rest = pre ++ p :: post) :
    ((update (runUpdates s pre) p).1._buttonState = LOW ↔
      ∃ q ∈ pre ++ [p], s._debounceInterval ≤ sub32 q.millisDebounce p0.millisChange) ∧
    (update (runUpdates s pre) p).2.count Event.press =
      (if s._buttonCallback = true ∧
          s._debounceInterval ≤ sub32 p.millisDebounce p0.millisChange ∧
          ∀ q ∈ pre, sub32 q.millisDebounce p0.millisChange < s._debounceInterval
        then 1 else 0) := by
  have hc := update_config s p0
  have h0 := update_low s p0 hen hb (hlow p0 (List.mem_cons_self p0 rest))
  rw [hl, hs] at h0
  simp only [if_true, true_and, Bool.true_eq_false, false_or] at h0
  cases pre with
  | nil =>
    simp only [List.nil_append, List.cons.injEq] at hsplit
    obtain ⟨rfl, -⟩ := hsplit
    simp only [runUpdates, List.nil_append, List.mem_singleton, exists_eq_left,
      List.not_mem_nil, false_imp_iff, implies_true, and_true]
    exact ⟨h0.2.2.1, h0.2.2.2⟩
  | cons a pre =>
    simp only [List.cons_append, List.cons.injEq] at hsplit
    obtain ⟨rfl, hrest⟩ := hsplit
    have hlow1 : ∀ q ∈ pre, q.digitalRead (update s p0).1._buttonPin = LOW := by
      intro q hq
      rw [hc.2.2.1]
      exact hlow q (List.mem_cons_of_mem _ (by rw [hrest]; simp [hq]))
    have hr := runUpdates_low pre (update s p0).1 (by rw [hc.2.2.2.2.2.2.2.2.2.2.2, hen])
      (by rw [hc.2.2.2.1, hb]) h0.1 hlow1
    rw [hc.2.2.1, hc.2.2.2.2.1, hc.2.2.2.2.2.2.2.2.2.1, h0.2.1, h0.2.2.1] at hr
    have hp := update_low (runUpdates (update s p0).1 pre) p hr.1 hr.2.1
      (by rw [hr.2.2.1]; exact hlow p (List.mem_cons_of_mem _ (by rw [hrest]; simp)))
    rw [hr.2.2.2.2.2.1, hr.2.2.2.2.2.2.1, hr.2.2.2.1, hr.2.2.2.2.1] at hp
    simp only [Bool.false_eq_true, if_false] at hp
    have hbs : (runUpdates (update s p0).1 pre)._buttonState = HIGH ↔
        ∀ q ∈ p0 :: pre, sub32 q.millisDebounce p0.millisChange < s._debounceInterval := by
      rw [← Bool.not_eq_false, hr.2.2.2.2.2.2.2]
      simp only [List.mem_cons, forall_eq_or_imp, not_or, not_exists, not_and, Nat.not_le]
    refine ⟨?_, ?_⟩
    · show (update (runUpdates (update s p0).1 pre) p).1._buttonState = LOW ↔ _
      rw [hp.2.2.1, hr.2.2.2.2.2.2.2]
      simp only [List.cons_append, List.mem_cons, List.mem_append, List.mem_singleton,
        exists_eq_or_imp, or_and_right, exists_or, exists_eq_left, or_assoc,
        List.not_mem_nil, false_and, exists_false, or_false]
    · show (update (runUpdates (update s p0).1 pre) p).2.count Event.press = _
      rw [hp.2.2.2]
      simp only [hbs]
      congr 1
      exact propext ⟨fun h => ⟨h.2.1, h.2.2, h.1⟩, fun h => ⟨h.2.2, h.1, h.2.1⟩⟩

/-- Polls during which the debounced level stays low: the press-onset time stays where it is
and the one-shot flag is set exactly when it was set before or some poll has reached the
long-press duration. -/
theorem runUpdates_hold (pre : List Platform) :
    ∀ u : EEncoder, u._enabled = true → u._hasButton = true →
      u._longPressCallback = true → u._buttonState = LOW →
      (∀ a b c, pre = a ++ b :: c → (update (runUpdates u a) b).1._buttonState = LOW) →
      (runUpdates u pre)._enabled = true ∧ (runUpdates u pre)._hasButton = true ∧
      (runUpdates u pre)._longPressCallback = true ∧
      (runUpdates u pre)._longPressDuration = u._longPressDuration ∧
      (runUpdates u pre)._buttonState = LOW ∧
      (runUpdates u pre)._buttonPressTime = u._buttonPressTime ∧
      ((runUpdates u pre)._longPressHandled = true ↔
        (u._longPressHandled = true ∨
          ∃ q ∈ pre, u._longPressDuration ≤ sub32 q.millisLongPress u._buttonPressTime)) := by
  induction pre with
  | nil =>
    intro u hen hb hreg hs _
    simp [runUpdates, hen, hb, hreg, hs]
  | cons x pre ih =>
    intro u hen hb hreg hs hheld
    have hc := update_config u x
    have hafter : (update u x).1._buttonState = LOW := hheld [] x pre rfl
    have h := update_hold u x hen hb hafter
    rw [hs, hreg] at h
    simp only [Bool.false_eq_true, if_false, true_and, false_or] at h
    have hrec := ih (update u x).1 (by rw [hc.2.2.2.2.2.2.2.2.2.2.2, hen])
      (by rw [hc.2.2.2.1, hb]) (by rw [hc.2.2.2.2.2.2.2.2.2.2.1, hreg]) hafter
      (fun a b c habc => hheld (x :: a) b c (by rw [habc]; rfl))
    rw [hc.2.2.2.2.2.1, h.1, h.2.1] at hrec
    refine ⟨hrec.1, hrec.2.1, hrec.2.2.1, hrec.2.2.2.1, hrec.2.2.2.2.1, hrec.2.2.2.2.2.1, ?_⟩
    show (runUpdates (update u x).1 pre)._longPressHandled = true ↔ _
    rw [hrec.2.2.2.2.2.2]
    simp only [List.mem_cons, exists_eq_or_imp, or_assoc]

theorem runUpdates_snoc (s : EEncoder) (pre : List Platform) (p : Platform) :
    runUpdates s (pre ++ [p]) = (update (runUpdates s pre) p).1 := by
  induction pre generalizing s with
  | nil => rfl
  | cons a pre ih => exact ih (update s a).1

theorem take_succ_length_append (pre : List Platform) (p : Platform) (post : List Platform) :
    (pre ++ p :: post).take (pre.length + 1) = pre ++ [p] := by
  induction pre with
  | nil => simp
  | cons a pre ih => simpa using ih

/-! ## The quadrature decoder -/

/-- C1: for each of the 16 (previous, current) pairs of 2-bit samples, the increment decoded
from the code `(previous << 2) | current` is `+1` exactly for 00->01, 01->11, 11->10, 10->00,
`-1` exactly for 00->10, 10->11, 11->01, 01->00 and `0` for the other eight pairs; the decoder
produces no value outside `+1`, `-1`, `0` on any code; and a sample has pin A in its high bit
and pin B in its low bit. -/
theorem decode_table :
    (∀ p c : Fin 4,
      decodeIncrement (combined p.val c.val) =
        if (p.val, c.val) ∈ [(0, 1), (1, 3), (3, 2), (2, 0)] then 1
        else if (p.val, c.val) ∈ [(0, 2), (2, 3), (3, 1), (1, 0)] then -1
        else 0) ∧
    (∀ n : Nat, decodeIncrement n = 1 ∨ decodeIncrement n = -1 ∨ decodeIncrement n = 0) ∧
    (∀ (s : EEncoder) (io : Platform),
      getEncoderState s io =
        2 * (io.digitalRead s._pinA).toNat + (io.digitalRead s._pinB).toNat) := by
  refine ⟨by decide, ?_, ?_⟩
  · intro n
    unfold decodeIncrement
    split <;> simp
  · intro s io
    unfold getEncoderState
    cases io.digitalRead s._pinA <;> cases io.digitalRead s._pinB <;> rfl

/-! ## Counts per detent -/

/-- C2 (the code at the failing input): a fresh enabled instance with a rotation handler is
turned through one detent, 00->01->11->10->00, every state seen by one poll, the polls 10 ms
apart: the rotation handler is called at each of the four polls, four counts for the one
detent; the reverse cycle gives four calls with `-1`; and when the four polls all fall inside
the first debounce window the handler is not called at all. -/
theorem detent_cycle_counts_every_edge :
    updateLog (setEncoderHandler (withButton 2 3 4 (reading false false true 0)) true)
      [reading false true true 10, reading true true true 20,
        reading true false true 30, reading false false true 40]
      = [[Event.rotation 1], [Event.rotation 1], [Event.rotation 1], [Event.rotation 1]] ∧
    updateLog (setEncoderHandler (withButton 2 3 4 (reading false false true 0)) true)
      [reading true false true 10, reading true true true 20,
        reading false true true 30, reading false false true 40]
      = [[Event.rotation (-1)], [Event.rotation (-1)], [Event.rotation (-1)],
          [Event.rotation (-1)]] ∧
    updateLog (setEncoderHandler (withButton 2 3 4 (reading false false true 0)) true)
      [reading false true true 1, reading true true true 2,
        reading true false true 3, reading false false true 4]
      = [[], [], [], []] := by
  refine ⟨by decide, by decide, by decide⟩

/-- What the debounce gate does for a detent: when the first edge of the cycle
00->01->11->10->00 passes the gate and the other three polls fall inside the debounce window
that it opens, the rotation handler is called once, at the first edge. -/
theorem detent_cycle_one_count_when_bunched (s : EEncoder) (io1 io2 io3 io4 : Platform)
    (hen : s._enabled = true) (hcb : s._encoderCallback = true)
    (hacc : s._accelerationEnabled = false) (h0 : s._lastEncoderState = 0)
    (h1 : getEncoderState s io1 = 1) (h2 : getEncoderState s io2 = 3)
    (h3 : getEncoderState s io3 = 2) (h4 : getEncoderState s io4 = 0)
    (t1 : s._debounceInterval ≤ sub32 io1.millis s._lastEncoderTime)
    (t2 : sub32 io2.millis io1.millis < s._debounceInterval)
    (t3 : sub32 io3.millis io1.millis < s._debounceInterval)
    (t4 : sub32 io4.millis io1.millis < s._debounceInterval) :
    (updateLog s [io1, io2, io3, io4]).map rotationEvents =
      [[Event.rotation 1], [], [], []] := by
  have c1 := update_config s io1
  have r1 := update_accepted_plain s io1 hen hacc (by rw [h1, h0]; decide) t1
  rw [h1, h0, hcb] at r1
  have hen1 : (update s io1).1._enabled = true := by rw [c1.2.2.2.2.2.2.2.2.2.2.2, hen]
  have g2 : getEncoderState (update s io1).1 io2 = 3 := by rw [getEncoderState_update, h2]
  have c2 := update_config (update s io1).1 io2
  have r2 := update_rejected (update s io1).1 io2 hen1 (by rw [g2, r1.2.1]; decide)
    (by rw [r1.2.2.1, c1.2.2.2.2.1]; exact t2)
  have hen2 : (update (update s io1).1 io2).1._enabled = true := by
    rw [c2.2.2.2.2.2.2.2.2.2.2.2, hen1]
  have g3 : getEncoderState (update (update s io1).1 io2).1 io3 = 2 := by
    rw [getEncoderState_update, getEncoderState_update, h3]
  have c3 := update_config (update (update s io1).1 io2).1 io3
  have r3 := update_rejected (update (update s io1).1 io2).1 io3 hen2
    (by rw [g3, r2.2.1, g2]; decide)
    (by rw [r2.2.2.1, r1.2.2.1, c2.2.2.2.2.1, c1.2.2.2.2.1]; exact t3)
  have hen3 : (update (update (update s io1).1 io2).1 io3).1._enabled = true := by
    rw [c3.2.2.2.2.2.2.2.2.2.2.2, hen2]
  have g4 : getEncoderState (update (update (update s io1).1 io2).1 io3).1 io4 = 0 := by
    rw [getEncoderState_update, getEncoderState_update, getEncoderState_update, h4]
  have r4 := update_rejected (update (update (update s io1).1 io2).1 io3).1 io4 hen3
    (by rw [g4, r3.2.1, g3]; decide)
    (by rw [r3.2.2.1, r2.2.2.1, r1.2.2.1, c3.2.2.2.2.1, c2.2.2.2.2.1, c1.2.2.2.2.1]
        exact t4)
  simp only [updateLog, List.map_cons, List.map_nil, r1.2.2.2.2, r2.2.2.2.2, r3.2.2.2.2,
    r4.2.2.2.2]
  decide

/-! ## The rotation debounce gate -/

/-- C3: an enabled instance in the freshly constructed rotation state (last sample 00,
rotation anchor 0, debounce 10 ms, acceleration off) with a rotation handler registered is
polled with sample 01 at t=0, 00 at t=3 and 01 at t=15: the rotation handler is called exactly
once, at the t=15 poll, with increment `+1`, and is not called at the t=0 and t=3 polls. -/
theorem worked_debounce_example (s : EEncoder) (io1 io2 io3 : Platform)
    (hen : s._enabled = true) (hcb : s._encoderCallback = true)
    (hacc : s._accelerationEnabled = false) (hdb : s._debounceInterval = 10)
    (h0 : s._lastEncoderState = 0) (ht0 : s._lastEncoderTime = 0)
    (h1 : getEncoderState s io1 = 1) (t1 : io1.millis = 0)
    (h2 : getEncoderState s io2 = 0) (t2 : io2.millis = 3)
    (h3 : getEncoderState s io3 = 1) (t3 : io3.millis = 15) :
    (updateLog s [io1, io2, io3]).map rotationEvents = [[], [], [Event.rotation 1]] ∧
    getIncrement (runUpdates s [io1, io2, io3]) = 1 := by
  have c1 := update_config s io1
  have r1 := update_rejected s io1 hen (by rw [h1, h0]; decide)
    (by rw [t1, ht0, hdb]; decide)
  have hen1 : (update s io1).1._enabled = true := by rw [c1.2.2.2.2.2.2.2.2.2.2.2, hen]
  have g2 : getEncoderState (update s io1).1 io2 = 0 := by rw [getEncoderState_update, h2]
  have c2 := update_config (update s io1).1 io2
  have r2 := update_rejected (update s io1).1 io2 hen1 (by rw [g2, r1.2.1, h1]; decide)
    (by rw [t2, r1.2.2.1, ht0, c1.2.2.2.2.1, hdb]; decide)
  have hen2 : (update (update s io1).1 io2).1._enabled = true := by
    rw [c2.2.2.2.2.2.2.2.2.2.2.2, hen1]
  have g3 : getEncoderState (update (update s io1).1 io2).1 io3 = 1 := by
    rw [getEncoderState_update, getEncoderState_update, h3]
  have r3 := update_accepted_plain (update (update s io1).1 io2).1 io3 hen2
    (by rw [c2.2.2.2.2.2.2.1, c1.2.2.2.2.2.2.1, hacc])
    (by rw [g3, r2.2.1, g2]; decide)
    (by rw [t3, r2.2.2.1, r1.2.2.1, ht0, c2.2.2.2.2.1, c1.2.2.2.2.1, hdb]; decide)
  rw [g3, r2.2.1, g2, c2.2.2.2.2.2.2.2.2.1, c1.2.2.2.2.2.2.2.2.1, hcb] at r3
  refine ⟨?_, ?_⟩
  · simp only [updateLog, List.map_cons, List.map_nil, r1.2.2.2.2, r2.2.2.2.2, r3.2.2.2.2]
    decide
  · simp only [runUpdates, getIncrement, r3.1]
    decide

/-- Witness for `worked_debounce_example`: the instance built by the three-pin constructor
with both rotation pins low, rotation handler registered. -/
theorem worked_debounce_example_witness :
    (updateLog (setEncoderHandler (withButton 2 3 4 (reading false false true 0)) true)
      [reading false true true 0, reading false false true 3,
        reading false true true 15]).map rotationEvents = [[], [], [Event.rotation 1]] :=
  (worked_debounce_example
    (setEncoderHandler (withButton 2 3 4 (reading false false true 0)) true)
    (reading false true true 0) (reading false false true 3) (reading false true true 15)
    (by decide) (by decide) (by decide) (by decide) (by decide) (by decide)
    (by decide) (by decide) (by decide) (by decide) (by decide) (by decide)).1

/-- C4: on an enabled instance, a poll whose sample differs from the stored last sample less
than the debounce window after the rotation anchor calls no rotation handler, leaves the
increment and the anchor `_lastEncoderTime` unchanged and stores the new sample as the last
sample; and in general the anchor after a poll is the poll time when the instance is enabled,
the sample changed and the elapsed time is at least the debounce window, and is the old
anchor otherwise. -/
theorem rotation_debounce_gate (s : EEncoder) (io : Platform) :
    (s._enabled = true → getEncoderState s io ≠ s._lastEncoderState →
      sub32 io.millis s._lastEncoderTime < s._debounceInterval →
        rotationEvents (update s io).2 = [] ∧
        (update s io).1._increment = s._increment ∧
        (update s io).1._lastEncoderTime = s._lastEncoderTime ∧
        (update s io).1._lastEncoderState = getEncoderState s io) ∧
    (update s io).1._lastEncoderTime =
      if s._enabled = true ∧ getEncoderState s io ≠ s._lastEncoderState ∧
          s._debounceInterval ≤ sub32 io.millis s._lastEncoderTime
      then io.millis else s._lastEncoderTime := by
  constructor
  · intro hen hch ht
    have h := update_rejected s io hen hch ht
    exact ⟨h.2.2.2.2, h.1, h.2.2.1, h.2.1⟩
  · cases hen : s._enabled
    · simp [update_disabled s io hen]
    · rw [(update_rotation s io hen).2.2.2.1]
      by_cases hch : getEncoderState s io = s._lastEncoderState
      · simp [readEncoder_unchanged s io hch, hch]
      · by_cases ht : s._debounceInterval ≤ sub32 io.millis s._lastEncoderTime
        · simp [(readEncoder_accepted s io hch ht).1, hch, ht]
        · simp [readEncoder_rejected s io hch (Nat.lt_of_not_le ht), hch, ht]

/-- Witness for `rotation_debounce_gate`: sample 01 arrives 3 ms after the anchor of a fresh
instance. -/
theorem rotation_debounce_gate_witness :
    rotationEvents (update (setEncoderHandler (withButton 2 3 4 (reading false false true 0))
        true) (reading false true true 3)).2 = [] ∧
    (update (setEncoderHandler (withButton 2 3 4 (reading false false true 0)) true)
        (reading false true true 3)).1._lastEncoderState = 1 :=
  have h := (rotation_debounce_gate
    (setEncoderHandler (withButton 2 3 4 (reading false false true 0)) true)
    (reading false true true 3)).1 (by decide) (by decide) (by decide)
  ⟨h.1, h.2.2.2⟩

/-- C5: on an enabled instance a poll whose sample equals the stored last sample leaves the
increment, the last sample and both rotation timestamps unchanged and calls no rotation
handler; and for any instance, the second of two consecutive polls reading the same sample
leaves the increment unchanged and calls no rotation handler, whatever the poll times. -/
theorem unchanged_sample_is_noop :
    (∀ (s : EEncoder) (io : Platform), s._enabled = true →
      getEncoderState s io = s._lastEncoderState →
        (update s io).1._increment = s._increment ∧
        (update s io).1._lastEncoderState = s._lastEncoderState ∧
        (update s io).1._lastEncoderTime = s._lastEncoderTime ∧
        (update s io).1._lastRotationTime = s._lastRotationTime ∧
        rotationEvents (update s io).2 = []) ∧
    (∀ (s : EEncoder) (io1 io2 : Platform), getEncoderState s io1 = getEncoderState s io2 →
      getIncrement (update (update s io1).1 io2).1 = getIncrement (update s io1).1 ∧
      rotationEvents (update (update s io1).1 io2).2 = []) := by
  have key : ∀ (s : EEncoder) (io : Platform), s._enabled = true →
      getEncoderState s io = s._lastEncoderState →
        (update s io).1._increment = s._increment ∧
        (update s io).1._lastEncoderState = s._lastEncoderState ∧
        (update s io).1._lastEncoderTime = s._lastEncoderTime ∧
        (update s io).1._lastRotationTime = s._lastRotationTime ∧
        rotationEvents (update s io).2 = [] := by
    intro s io hen h
    have hu := update_rotation s io hen
    rw [readEncoder_unchanged s io h] at hu
    simpa using ⟨hu.1, hu.2.1, hu.2.2.2.1, hu.2.2.2.2.1, hu.2.2.2.2.2⟩
  refine ⟨key, ?_⟩
  intro s io1 io2 hsame
  cases hen : s._enabled
  · simp [update_disabled s io1 hen, update_disabled s io2 hen, rotationEvents]
  · have hen1 : (update s io1).1._enabled = true := by
      rw [(update_config s io1).2.2.2.2.2.2.2.2.2.2.2, hen]
    have hlast : (update s io1).1._lastEncoderState = getEncoderState s io1 := by
      rw [(update_rotation s io1 hen).2.1]
      by_cases hch : getEncoderState s io1 = s._lastEncoderState
      · simp [readEncoder_unchanged s io1 hch, hch]
      · by_cases ht : s._debounceInterval ≤ sub32 io1.millis s._lastEncoderTime
        · exact (readEncoder_accepted s io1 hch ht).2.1
        · simp [readEncoder_rejected s io1 hch (Nat.lt_of_not_le ht)]
    have h2 := key (update s io1).1 io2 hen1
      (by rw [getEncoderState_update, hlast, hsame])
    exact ⟨h2.1, h2.2.2.2.2⟩

/-- Witness for `unchanged_sample_is_noop`: a fresh instance polled twice with sample 01. -/
theorem unchanged_sample_is_noop_witness :
    rotationEvents (update (update (withButton 2 3 4 (reading false false true 0))
      (reading false true true 20)).1 (reading false true false 900)).2 = [] :=
  (unchanged_sample_is_noop.2 (withButton 2 3 4 (reading false false true 0))
    (reading false true true 20) (reading false true false 900) (by decide)).2

/-! ## Acceleration -/

/-- For an acceleration rate of at most 127: when two steps of the same direction are both
accepted by the debounce gate with acceleration on, the increment after the second step is
the base step times the rate if the steps are less than 100 ms apart and the base step
otherwise. -/
theorem acceleration_second_step (s : EEncoder) (io1 io2 : Platform)
    (hen : s._enabled = true) (hacc : s._accelerationEnabled = true)
    (hR : s._accelerationRate ≤ 127)
    (hch1 : getEncoderState s io1 ≠ s._lastEncoderState)
    (ht1 : s._debounceInterval ≤ sub32 io1.millis s._lastEncoderTime)
    (hstep : decodeIncrement (combined s._lastEncoderState (getEncoderState s io1)) ≠ 0)
    (hch2 : getEncoderState s io2 ≠ getEncoderState s io1)
    (ht2 : s._debounceInterval ≤ sub32 io2.millis io1.millis)
    (hsame : decodeIncrement (combined (getEncoderState s io1) (getEncoderState s io2)) =
      decodeIncrement (combined s._lastEncoderState (getEncoderState s io1))) :
    getIncrement (runUpdates s [io1, io2]) =
      if sub32 io2.millis io1.millis < ACCELERATION_THRESHOLD_MS then
        decodeIncrement (combined s._lastEncoderState (getEncoderState s io1)) *
          (s._accelerationRate : Int)
      else decodeIncrement (combined s._lastEncoderState (getEncoderState s io1)) := by
  have c1 := update_config s io1
  have r1 := update_accepted_accel s io1 hen hacc hch1 ht1 hstep
  have hen1 : (update s io1).1._enabled = true := by rw [c1.2.2.2.2.2.2.2.2.2.2.2, hen]
  have hacc1 : (update s io1).1._accelerationEnabled = true := by
    rw [c1.2.2.2.2.2.2.1, hacc]
  have g2 : getEncoderState (update s io1).1 io2 = getEncoderState s io2 :=
    getEncoderState_update s io1 io2
  have r2 := update_accepted_accel (update s io1).1 io2 hen1 hacc1
    (by rw [g2, r1.2.1]; exact hch2)
    (by rw [r1.2.2.1, c1.2.2.2.2.1]; exact ht2)
    (by rw [g2, r1.2.1, hsame]; exact hstep)
  simp only [runUpdates, getIncrement, r2.1, g2, r1.2.1, r1.2.2.2, hsame,
    c1.2.2.2.2.2.2.2.1]
  split_ifs
  · rcases (decode_values (combined s._lastEncoderState (getEncoderState s io1)))
      with h | h | h <;> rw [h] <;> unfold wrap8 <;> omega
  · rfl

/-- C6 (the code at the failing input): acceleration on with rate 200, two clockwise steps
00->01 at t=10 and 01->11 at t=30, both accepted by the 10 ms debounce gate and 20 ms apart:
`getIncrement()` after the second step is `-56`, not `+200`, and the rotation handler sees
`-56`; with rate 128 it is `-128`. -/
theorem acceleration_rate_overflow :
    getIncrement (runUpdates
      (setAccelerationRate (setAcceleration
        (setEncoderHandler (withButton 2 3 4 (reading false false true 0)) true) true) 200)
      [reading false true true 10, reading true true true 30]) = -56 ∧
    updateLog
      (setAccelerationRate (setAcceleration
        (setEncoderHandler (withButton 2 3 4 (reading false false true 0)) true) true) 200)
      [reading false true true 10, reading true true true 30]
      = [[Event.rotation (-56)], [Event.rotation (-56)]] ∧
    getIncrement (runUpdates
      (setAccelerationRate (setAcceleration
        (setEncoderHandler (withButton 2 3 4 (reading false false true 0)) true) true) 128)
      [reading false true true 10, reading true true true 30]) = -128 := by
  refine ⟨by decide, by decide, by decide⟩

/-! ## Button press and long press -/

/-- The press commit when the clock does not advance between the anchor read (line 161) and
the debounce test (line 165) of the first poll.  An enabled instance with a button whose
debounced level and last raw level are both high is polled with the raw level low, the
debounce test of poll `i` reading the 32-bit clock value `t_i`, `t0 <= t1 <= ...`.  After any
poll the debounced level is pressed exactly when some poll so far has `t_i - t0 >=` debounce
window, and the number of press-handler calls made by a poll is 1 when a handler is
registered and the poll is the first with `t_i - t0 >=` debounce window, and 0 otherwise. -/
theorem button_press_commits_once (s : EEncoder) (p0 : Platform) (rest : List Platform)
    (hen : s._enabled = true) (hb : s._hasButton = true)
    (hs : s._buttonState = HIGH) (hl : s._lastButtonState = HIGH)
    (hlow : ∀ q ∈ p0 :: rest, q.digitalRead s._buttonPin = LOW)
    (hfirst : p0.millisChange = p0.millisDebounce)
    (hmono : (p0 :: rest).Pairwise (fun a b => a.millisDebounce ≤ b.millisDebounce))
    (hclock : ∀ q ∈ p0 :: rest, q.millisDebounce < 4294967296)
    (pre : List Platform) (p : Platform) (post : List Platform)
    (hsplit : p0 :: rest = pre ++ p :: post) :
    ((update (runUpdates s pre) p).1._buttonState = LOW ↔
      ∃ q ∈ pre ++ [p], s._debounceInterval ≤ q.millisDebounce - p0.millisDebounce) ∧
    (update (runUpdates s pre) p).2.count Event.press =
      (if s._buttonCallback = true ∧
          s._debounceInterval ≤ p.millisDebounce - p0.millisDebounce ∧
          ∀ q ∈ pre, q.millisDebounce - p0.millisDebounce < s._debounceInterval
        then 1 else 0) := by
  have hsub : ∀ q ∈ p0 :: rest,
      sub32 q.millisDebounce p0.millisChange = q.millisDebounce - p0.millisDebounce := by
    intro q hq
    rw [hfirst]
    refine sub32_of_le _ _ ?_ (hclock q hq)
    rcases List.mem_cons.mp hq with rfl | hq
    · exact Nat.le_refl _
    · exact (List.pairwise_cons.mp hmono).1 q hq
  have hpre : ∀ q ∈ pre, q ∈ p0 :: rest := fun q hq => by rw [hsplit]; simp [hq]
  have hp : p ∈ p0 :: rest := by rw [hsplit]; simp
  have core := press_commit_elapsed s p0 rest hen hb hs hl hlow pre p post hsplit
  refine ⟨core.1.trans ?_, core.2.trans (if_congr ?_ rfl rfl)⟩
  · constructor
    · rintro ⟨q, hq, h⟩
      refine ⟨q, hq, ?_⟩
      rcases List.mem_append.mp hq with hq1 | hq1
      · rwa [hsub q (hpre q hq1)] at h
      · rw [List.mem_singleton.mp hq1] at h ⊢; rwa [hsub p hp] at h
    · rintro ⟨q, hq, h⟩
      refine ⟨q, hq, ?_⟩
      rcases List.mem_append.mp hq with hq1 | hq1
      · rwa [hsub q (hpre q hq1)]
      · rw [List.mem_singleton.mp hq1] at h ⊢; rwa [hsub p hp]
  · rw [hsub p hp]
    constructor
    · rintro ⟨h1, h2, h3⟩
      exact ⟨h1, h2, fun q hq => by rw [← hsub q (hpre q hq)]; exact h3 q hq⟩
    · rintro ⟨h1, h2, h3⟩
      exact ⟨h1, h2, fun q hq => by rw [hsub q (hpre q hq)]; exact h3 q hq⟩

/-- Witness for `button_press_commits_once`: a fresh instance with a press handler, button
read low at t = 100, 105, 112, 130; the handler is called at the t = 112 poll. -/
theorem button_press_commits_once_witness :
    (update (runUpdates (setButtonHandler (withButton 2 3 4 (reading false false true 0)) true)
      [reading false false false 100, reading false false false 105])
      (reading false false false 112)).2.count Event.press = 1 :=
  (button_press_commits_once
    (setButtonHandler (withButton 2 3 4 (reading false false true 0)) true)
    (reading false false false 100)
    [reading false false false 105, reading false false false 112,
      reading false false false 130]
    (by decide) (by decide) (by decide) (by decide) (by decide) rfl (by decide) (by decide)
    [reading false false false 100, reading false false false 105]
    (reading false false false 112) [reading false false false 130] rfl).2.trans (by decide)

/-- C7 (the code at the failing input): debounce window 1 ms, press handler registered, the
button of a fresh instance (debounced and last raw level high) reads low at two polls.  In
the first poll `millis()` returns 100 at line 161 and 101 at line 165: the press is committed
and the press handler called at that very poll, although no time of the poll is 1 ms after
the poll itself; the second poll, at t=103, the first that is 1 ms after the first poll,
calls nothing.  When the clock does not advance inside the first poll, that poll commits
nothing and the second poll commits the press. -/
theorem press_commits_at_first_poll_when_clock_ticks :
    updateLog (setDebounceInterval
        (setButtonHandler (withButton 2 3 4 (reading false false true 0)) true) 1)
      [readingTicks false false false 100 100 101 102 102, reading false false false 103]
      = [[Event.press], []] ∧
    (update (setDebounceInterval
        (setButtonHandler (withButton 2 3 4 (reading false false true 0)) true) 1)
      (readingTicks false false false 100 100 101 102 102)).1._buttonState = LOW ∧
    updateLog (setDebounceInterval
        (setButtonHandler (withButton 2 3 4 (reading false false true 0)) true) 1)
      [reading false false false 100, reading false false false 103]
      = [[], [Event.press]] := by
  refine ⟨by decide, by decide, by decide⟩

/-- C8: with a long-press handler registered, a poll `p0` commits a press (the debounced level
goes from released to pressed) and the level is pressed after every poll of the sequence
`p0 :: rest`.  Then the press-onset time is `c`, the clock value `p0` reads at line 172,
throughout; the number of long-press-handler calls made by a poll is 1 when the poll is the
first whose elapsed time `now - c` reaches the long-press duration and 0 otherwise, where
`now` is the clock value the poll reads in the long-press test (line 190) and the difference
is the unsigned 32-bit one the code computes; and the one-shot flag is set after a poll
exactly when some poll so far has reached the duration.  The poll that commits the press
counts as a poll of the hold: the clock may have advanced between its lines 172 and 190.  The
starting state is arbitrary, so the same holds for every later hold that follows a
release. -/
theorem long_press_once_per_hold (s : EEncoder) (p0 : Platform) (rest : List Platform)
    (hreg : s._longPressCallback = true) (hrel : s._buttonState = HIGH)
    (hold : ∀ k, k < (p0 :: rest).length →
      (runUpdates s ((p0 :: rest).take (k + 1)))._buttonState = LOW)
    (pre : List Platform) (p : Platform) (post : List Platform)
    (hsplit : p0 :: rest = pre ++ p :: post) :
    (update (runUpdates s pre) p).1._buttonPressTime = p0.millisPress ∧
    (update (runUpdates s pre) p).2.count Event.longPress =
      (if s._longPressDuration ≤ sub32 p.millisLongPress p0.millisPress ∧
          ∀ q ∈ pre, sub32 q.millisLongPress p0.millisPress < s._longPressDuration
        then 1 else 0) ∧
    ((update (runUpdates s pre) p).1._longPressHandled = true ↔
      ∃ q ∈ pre ++ [p], s._longPressDuration ≤ sub32 q.millisLongPress p0.millisPress) := by
  have hheld : ∀ pre p post, p0 :: rest = pre ++ p :: post →
      (update (runUpdates s pre) p).1._buttonState = LOW := by
    intro a b c habc
    have h := hold a.length (by rw [habc]; simp)
    rwa [habc, take_succ_length_append, runUpdates_snoc] at h
  have hafter0 : (update s p0).1._buttonState = LOW := hheld [] p0 rest rfl
  obtain ⟨hen, hb⟩ := update_buttonState_changed s p0 (by rw [hafter0, hrel]; decide)
  have hc := update_config s p0
  have h0 := update_hold s p0 hen hb hafter0
  rw [hrel, hreg] at h0
  simp only [if_true, true_and, true_or, Bool.true_eq_false, false_and, false_or] at h0
  cases pre with
  | nil =>
    simp only [List.nil_append, List.cons.injEq] at hsplit
    obtain ⟨rfl, -⟩ := hsplit
    simp only [runUpdates, List.nil_append, List.mem_singleton, exists_eq_left,
      List.not_mem_nil, false_imp_iff, implies_true, and_true]
    exact ⟨h0.1, h0.2.2, h0.2.1⟩
  | cons a pre =>
    simp only [List.cons_append, List.cons.injEq] at hsplit
    obtain ⟨rfl, hrest⟩ := hsplit
    have hr := runUpdates_hold pre (update s p0).1 (by rw [hc.2.2.2.2.2.2.2.2.2.2.2, hen])
      (by rw [hc.2.2.2.1, hb]) (by rw [hc.2.2.2.2.2.2.2.2.2.2.1, hreg]) hafter0
      (fun x y z hxyz => hheld (p0 :: x) y (z ++ p :: post)
        (by rw [hrest, hxyz]; simp))
    rw [hc.2.2.2.2.2.1, h0.1, h0.2.1] at hr
    have hafter : (update (runUpdates (update s p0).1 pre) p).1._buttonState = LOW :=
      hheld (p0 :: pre) p post (by rw [hrest]; rfl)
    have hp := update_hold (runUpdates (update s p0).1 pre) p hr.1 hr.2.1 hafter
    rw [hr.2.2.2.2.1, hr.2.2.1, hr.2.2.2.1, hr.2.2.2.2.2.1] at hp
    simp only [Bool.false_eq_true, if_false, true_and, false_or] at hp
    have hflag : (runUpdates (update s p0).1 pre)._longPressHandled = false ↔
        ∀ q ∈ p0 :: pre,
          sub32 q.millisLongPress p0.millisPress < s._longPressDuration := by
      rw [← Bool.not_eq_true, hr.2.2.2.2.2.2]
      simp only [List.mem_cons, forall_eq_or_imp, not_or, not_exists, not_and, Nat.not_le]
    refine ⟨hp.1, ?_, ?_⟩
    · show (update (runUpdates (update s p0).1 pre) p).2.count Event.longPress = _
      rw [hp.2.2]
      simp only [hflag]
      exact if_congr and_comm rfl rfl
    · show (update (runUpdates (update s p0).1 pre) p).1._longPressHandled = true ↔ _
      rw [hp.2.1, hr.2.2.2.2.2.2]
      simp only [List.cons_append, List.mem_cons, List.mem_append, List.mem_singleton,
        exists_eq_or_imp, or_and_right, exists_or, exists_eq_left, or_assoc,
        List.not_mem_nil, false_and, exists_false, or_false]

/-- Witness for `long_press_once_per_hold`: the second hold of an instance that has already
seen a long press (press committed at t=10, long press at t=510) and a release (committed at
t=610); the new press commits at t=710 and the long-press handler is called again at
t=1210. -/
theorem long_press_once_per_hold_witness :
    (update (runUpdates
      (runUpdates (setLongPressHandler (withButton 2 3 4 (reading false false true 0)) true)
        [reading false false false 0, reading false false false 10,
          reading false false false 510, reading false false true 600,
          reading false false true 610, reading false false false 700])
      [reading false false false 710, reading false false false 1000])
      (reading false false false 1210)).2.count Event.longPress = 1 :=
  (long_press_once_per_hold
    (runUpdates (setLongPressHandler (withButton 2 3 4 (reading false false true 0)) true)
      [reading false false false 0, reading false false false 10,
        reading false false false 510, reading false false true 600,
        reading false false true 610, reading false false false 700])
    (reading false false false 710)
    [reading false false false 1000, reading false false false 1210,
      reading false false false 1300]
    (by decide) (by decide) (by decide)
    [reading false false false 710, reading false false false 1000]
    (reading false false false 1210) [reading false false false 1300] rfl).2.1.trans
    (by decide)

/-- The long press in the poll that commits the press: both handlers registered, the press
commits in a poll that reads 10 at line 172 and, after a press handler that takes 600 ms, 610
at line 190; with the 500 ms duration the long-press handler is called in that same poll,
and not again at t=700. -/
theorem long_press_in_commit_poll :
    updateLog (setLongPressHandler
        (setButtonHandler (withButton 2 3 4 (reading false false true 0)) true) true)
      [reading false false false 0, readingTicks false false false 10 10 10 10 610,
        reading false false false 700]
      = [[], [Event.press, Event.longPress], []] := by
  decide

/-! ## Enable control -/

/-- C9: on a disabled instance `update()` returns the state unchanged and calls no handler,
for every pin level and clock value; hence any sequence of polls made while disabled leaves
the state as it was and calls no handler (in particular no long-press handler, however much
time passes). -/
theorem disabled_update_is_noop (s : EEncoder) (h : s._enabled = false) :
    (∀ io : Platform, update s io = (s, [])) ∧
    (∀ ios : List Platform, runUpdates s ios = s ∧ ∀ es ∈ updateLog s ios, es = []) := by
  refine ⟨fun io => update_disabled s io h, ?_⟩
  intro ios
  induction ios with
  | nil => simp [runUpdates, updateLog]
  | cons io ios ih =>
    simp only [runUpdates, updateLog, update_disabled s io h, List.mem_cons]
    refine ⟨ih.1, ?_⟩
    rintro es (rfl | hes)
    · rfl
    · exact ih.2 es hes

/-- Witness for `disabled_update_is_noop`: a held button on a disabled instance, polled long
after the long-press duration. -/
theorem disabled_update_is_noop_witness :
    update (enable (setLongPressHandler (withButton 2 3 4 (reading false false true 0)) true)
      false) (reading false true false 5000) =
      (enable (setLongPressHandler (withButton 2 3 4 (reading false false true 0)) true)
        false, []) :=
  (disabled_update_is_noop
    (enable (setLongPressHandler (withButton 2 3 4 (reading false false true 0)) true) false)
    (by decide)).1 (reading false true false 5000)

/-- C10: `enable(false)` sets the increment to 0 and changes no field other than the enabled
flag and the increment; and in every state reachable from a constructor by `update()`,
`enable()`, the setters and the handler registrations, a disabled instance has
`getIncrement() = 0`. -/
theorem disabled_implies_zero_increment :
    (∀ s : EEncoder, enable s false = { s with _enabled := false, _increment := 0 }) ∧
    (∀ s : EEncoder, Reachable s → s._enabled = false → getIncrement s = 0) := by
  refine ⟨fun s => by simp [enable], ?_⟩
  intro s hs
  induction hs with
  | withButton pinA pinB buttonPin io => simp [withButton, initialised]
  | withoutButton pinA pinB io => simp [withoutButton, initialised]
  | update s io _ ih =>
    intro hdis
    have hen : s._enabled = false := by
      rw [← (update_config s io).2.2.2.2.2.2.2.2.2.2.2]; exact hdis
    rw [update_disabled s io hen]
    exact ih hen
  | enable s enabled _ ih =>
    cases enabled
    · simp [enable, getIncrement]
    · simp [enable]
  | setEncoderHandler s callback _ ih => exact ih
  | setButtonHandler s callback _ ih => exact ih
  | setLongPressHandler s callback _ ih => exact ih
  | setDebounceInterval s intervalMs _ ih => exact ih
  | setLongPressDuration s durationMs _ ih => exact ih
  | setAcceleration s enabled _ ih => exact ih
  | setAccelerationRate s rate _ ih => exact ih

/-- Witness for `disabled_implies_zero_increment`: turn one step, then disable. -/
theorem disabled_implies_zero_increment_witness :
    getIncrement (enable (update (withButton 2 3 4 (reading false false true 0))
      (reading false true true 15)).1 false) = 0 :=
  disabled_implies_zero_increment.2
    (enable (update (withButton 2 3 4 (reading false false true 0))
      (reading false true true 15)).1 false)
    (Reachable.enable _ false (Reachable.update _ _ (Reachable.withButton 2 3 4 _)))
    (by decide)

/-! ## Further facts about one poll and about call sequences -/

theorem runUpdates_disabled (s : EEncoder) (h : s._enabled = false) (ios : List Platform) :
    runUpdates s ios = s := by
  induction ios with
  | nil => rfl
  | cons io ios ih => simp only [runUpdates, update_disabled s io h, ih]

/-- An enabled poll whose sample equals the stored last sample. -/
theorem update_unchanged (s : EEncoder) (io : Platform) (hen : s._enabled = true)
    (h : getEncoderState s io = s._lastEncoderState) :
    (update s io).1._increment = s._increment ∧
    (update s io).1._lastEncoderState = s._lastEncoderState ∧
    (update s io).1._lastEncoderTime = s._lastEncoderTime ∧
    (update s io).1._lastRotationTime = s._lastRotationTime ∧
    rotationEvents (update s io).2 = [] := by
  have hu := update_rotation s io hen
  rw [readEncoder_unchanged s io h] at hu
  simpa using ⟨hu.1, hu.2.1, hu.2.2.2.1, hu.2.2.2.2.1, hu.2.2.2.2.2⟩

/-- The increment stored by an enabled poll whose changed sample passes the debounce gate. -/
theorem update_accepted_increment (s : EEncoder) (io : Platform) (hen : s._enabled = true)
    (hch : getEncoderState s io ≠ s._lastEncoderState)
    (ht : s._debounceInterval ≤ sub32 io.millis s._lastEncoderTime) :
    (update s io).1._increment =
      if decodeIncrement (combined s._lastEncoderState (getEncoderState s io)) ≠ 0 ∧
          s._accelerationEnabled = true ∧
          sub32 io.millis s._lastRotationTime < ACCELERATION_THRESHOLD_MS
      then wrap8 (decodeIncrement (combined s._lastEncoderState (getEncoderState s io)) *
        (s._accelerationRate : Int))
      else decodeIncrement (combined s._lastEncoderState (getEncoderState s io)) := by
  rw [(update_rotation s io hen).1, (readEncoder_accepted s io hch ht).2.2]
  simp only [applyAcceleration]
  split_ifs <;> simp_all

/-- The handlers `readEncoder` calls: none, or the rotation handler once, with the stored
increment, which is then not 0. -/
theorem readEncoder_events (s : EEncoder) (io : Platform) :
    (readEncoder s io).2 = [] ∨
    ((readEncoder s io).2 = [Event.rotation (readEncoder s io).1._increment] ∧
      (readEncoder s io).1._increment ≠ 0) := by
  simp only [readEncoder, applyAcceleration]
  split_ifs <;> simp_all

theorem mem_rotationEvents (n : Int) (es : List Event) (h : Event.rotation n ∈ es) :
    Event.rotation n ∈ rotationEvents es := by
  simp [rotationEvents, h]

/-- The handlers `readButton` calls: the press handler at most once, then the long-press
handler at most once. -/
theorem readButton_events (u : EEncoder) (io : Platform) :
    (readButton u io).2 = [] ∨ (readButton u io).2 = [Event.press] ∨
    (readButton u io).2 = [Event.longPress] ∨
    (readButton u io).2 = [Event.press, Event.longPress] := by
  simp only [readButton, restartDebounce, commitButton, checkLongPress]
  split_ifs <;> simp

/-- The raw-change and commit blocks of one `readButton`. -/
theorem readButton_commit (u : EEncoder) (io : Platform) :
    (readButton u io).1._lastButtonState = io.digitalRead u._buttonPin ∧
    (readButton u io).1._buttonStateChangeTime =
      (if io.digitalRead u._buttonPin ≠ u._lastButtonState then io.millisChange
        else u._buttonStateChangeTime) ∧
    (readButton u io).1._buttonState =
      (if u._debounceInterval ≤ sub32 io.millisDebounce
            (if io.digitalRead u._buttonPin ≠ u._lastButtonState then io.millisChange
              else u._buttonStateChangeTime) ∧
          io.digitalRead u._buttonPin ≠ u._buttonState
        then io.digitalRead u._buttonPin else u._buttonState) ∧
    (readButton u io).2.count Event.press =
      (if u._debounceInterval ≤ sub32 io.millisDebounce
            (if io.digitalRead u._buttonPin ≠ u._lastButtonState then io.millisChange
              else u._buttonStateChangeTime) ∧
          io.digitalRead u._buttonPin ≠ u._buttonState ∧
          io.digitalRead u._buttonPin = LOW ∧ u._buttonCallback = true
        then 1 else 0) := by
  simp only [readButton, restartDebounce, commitButton, checkLongPress]
  split_ifs <;> simp_all [LOW, HIGH] <;>
    (try (rcases ‹_ ∧ _ ∧ _ ∧ _› with ⟨_, h1, h2, _⟩; rw [h1] at h2
          exact absurd h2 (by decide)))

/-- The raw-change and commit blocks of one poll of an enabled instance with a button. -/
theorem update_commit (s : EEncoder) (io : Platform) (hen : s._enabled = true)
    (hb : s._hasButton = true) :
    (update s io).1._lastButtonState = io.digitalRead s._buttonPin ∧
    (update s io).1._buttonStateChangeTime =
      (if io.digitalRead s._buttonPin ≠ s._lastButtonState then io.millisChange
        else s._buttonStateChangeTime) ∧
    (update s io).1._buttonState =
      (if s._debounceInterval ≤ sub32 io.millisDebounce
            (if io.digitalRead s._buttonPin ≠ s._lastButtonState then io.millisChange
              else s._buttonStateChangeTime) ∧
          io.digitalRead s._buttonPin ≠ s._buttonState
        then io.digitalRead s._buttonPin else s._buttonState) ∧
    (update s io).2.count Event.press =
      (if s._debounceInterval ≤ sub32 io.millisDebounce
            (if io.digitalRead s._buttonPin ≠ s._lastButtonState then io.millisChange
              else s._buttonStateChangeTime) ∧
          io.digitalRead s._buttonPin ≠ s._buttonState ∧
          io.digitalRead s._buttonPin = LOW ∧ s._buttonCallback = true
        then 1 else 0) := by
  have hc := readEncoder_config s io
  have hbtn := readEncoder_button s io
  have h := readButton_commit (readEncoder s io).1 io
  rw [hc.2.2.1, hbtn.1, hbtn.2.1, hbtn.2.2.1, hc.2.2.2.2.1, hc.2.2.2.2.2.2.2.2.2.1] at h
  rw [update_withButton s io hen hb]
  simp only [List.count_append, count_press_readEncoder, Nat.zero_add]
  exact h

/-- Polls that keep reading the raw level `x` inside the debounce window opened at `t1`
leave the anchor and the debounced level alone. -/
theorem runUpdates_within_window (mids : List Platform) (x : Bool) (t1 : Nat) :
    ∀ u : EEncoder, u._enabled = true → u._hasButton = true → u._lastButtonState = x →
      u._buttonStateChangeTime = t1 →
      (∀ q ∈ mids, q.digitalRead u._buttonPin = x ∧
        sub32 q.millisDebounce t1 < u._debounceInterval) →
      (runUpdates u mids)._enabled = true ∧ (runUpdates u mids)._hasButton = true ∧
      (runUpdates u mids)._buttonPin = u._buttonPin ∧
      (runUpdates u mids)._debounceInterval = u._debounceInterval ∧
      (runUpdates u mids)._lastButtonState = x ∧
      (runUpdates u mids)._buttonStateChangeTime = t1 ∧
      (runUpdates u mids)._buttonState = u._buttonState := by
  induction mids with
  | nil =>
    intro u hen hb hl ha _
    exact ⟨hen, hb, rfl, rfl, hl, ha, rfl⟩
  | cons q mids ih =>
    intro u hen hb hl ha hq
    have hc := update_config u q
    have hq0 := hq q (List.mem_cons_self q mids)
    have h := update_commit u q hen hb
    rw [hq0.1, hl, ha] at h
    simp only [ne_eq, not_true_eq_false, if_false, Nat.not_le.mpr hq0.2, false_and] at h
    have hrec := ih (update u q).1 (by rw [hc.2.2.2.2.2.2.2.2.2.2.2, hen])
      (by rw [hc.2.2.2.1, hb]) h.1 h.2.1
      (fun r hr => by
        rw [hc.2.2.1, hc.2.2.2.2.1]; exact hq r (List.mem_cons_of_mem q hr))
    rw [hc.2.2.1, hc.2.2.2.2.1, h.2.2.1] at hrec
    exact hrec

theorem sub32_add_mod (a e : Nat) (he : e < 4294967296) :
    sub32 ((a + e) % 4294967296) a = e := by
  unfold sub32; omega

theorem call_hasButton (s : EEncoder) (c : Call) : (call s c)._hasButton = s._hasButton := by
  cases c with
  | update io => exact (update_config s io).2.2.2.1
  | enable enabled => cases enabled <;> simp [call, enable]
  | _ => rfl

/-- Without a button, `update()` leaves all button state alone and calls no button handler. -/
theorem update_noButton (s : EEncoder) (io : Platform) (hb : s._hasButton = false) :
    buttonFields (update s io).1 = buttonFields s ∧
    (∀ e ∈ (update s io).2, e ≠ Event.press ∧ e ≠ Event.longPress) := by
  cases hen : s._enabled
  · rw [update_disabled s io hen]
    simp
  · rw [update_withoutButton s io hen hb]
    have h := readEncoder_button s io
    exact ⟨by simp only [buttonFields, h], h.2.2.2.2.2⟩

theorem call_noButton (s : EEncoder) (c : Call) (hb : s._hasButton = false) :
    buttonFields (call s c) = buttonFields s := by
  cases c with
  | update io => exact (update_noButton s io hb).1
  | enable enabled => cases enabled <;> simp [call, enable, buttonFields]
  | _ => rfl

theorem calls_noButton (cs : List Call) :
    ∀ s : EEncoder, s._hasButton = false →
      (calls s cs)._hasButton = false ∧ buttonFields (calls s cs) = buttonFields s := by
  induction cs with
  | nil => intro s hb; exact ⟨hb, rfl⟩
  | cons c cs ih =>
    intro s hb
    have h := ih (call s c) (by rw [call_hasButton, hb])
    exact ⟨h.1, h.2.trans (call_noButton s c hb)⟩

theorem commitButton_flag (w : EEncoder) (cur : Bool) (dnow pnow : Nat) :
    ((w._longPressHandled = true → w._buttonState = LOW) →
      (commitButton w cur dnow pnow).1._longPressHandled = true →
        (commitButton w cur dnow pnow).1._buttonState = LOW) ∧
    ((commitButton w cur dnow pnow).1._buttonState ≠ w._buttonState →
      (commitButton w cur dnow pnow).1._longPressHandled = false) := by
  simp only [commitButton]
  split_ifs <;> simp_all

/-- One `readButton` keeps "flag set implies pressed", and a committed release clears the
flag. -/
theorem readButton_flag (u : EEncoder) (io : Platform) :
    ((u._longPressHandled = true → u._buttonState = LOW) →
      (readButton u io).1._longPressHandled = true →
        (readButton u io).1._buttonState = LOW) ∧
    (u._buttonState = LOW → (readButton u io).1._buttonState = HIGH →
      (readButton u io).1._longPressHandled = false) := by
  have hw := restartDebounce_frame u (io.digitalRead u._buttonPin) io.millisChange
  have h1 := commitButton_flag (restartDebounce u (io.digitalRead u._buttonPin)
    io.millisChange) (io.digitalRead u._buttonPin) io.millisDebounce io.millisPress
  have h2 := checkLongPress_spec
    (commitButton (restartDebounce u (io.digitalRead u._buttonPin) io.millisChange)
      (io.digitalRead u._buttonPin) io.millisDebounce io.millisPress).1 io.millisLongPress
  rw [hw.1, hw.2.2.1] at h1
  constructor
  · intro hinv hflag
    show (checkLongPress _ io.millisLongPress).1._buttonState = LOW
    rw [h2.1]
    have hflag2 : (checkLongPress (commitButton (restartDebounce u
        (io.digitalRead u._buttonPin) io.millisChange) (io.digitalRead u._buttonPin)
        io.millisDebounce io.millisPress).1 io.millisLongPress).1._longPressHandled
        = true := hflag
    rcases h2.2.2.1.mp hflag2 with h | h
    · exact h1.1 hinv h
    · exact h.1
  · intro hlow hhigh
    have hhigh2 : (checkLongPress (commitButton (restartDebounce u
        (io.digitalRead u._buttonPin) io.millisChange) (io.digitalRead u._buttonPin)
        io.millisDebounce io.millisPress).1 io.millisLongPress).1._buttonState
        = HIGH := hhigh
    rw [h2.1] at hhigh2
    have hclear := h1.2 (by rw [hhigh2, hlow]; decide)
    show (checkLongPress _ io.millisLongPress).1._longPressHandled = false
    rw [← Bool.not_eq_true, h2.2.2.1, hclear, hhigh2]
    simp

theorem update_flag (s : EEncoder) (io : Platform) :
    ((s._longPressHandled = true → s._buttonState = LOW) →
      (update s io).1._longPressHandled = true → (update s io).1._buttonState = LOW) ∧
    (s._buttonState = LOW → (update s io).1._buttonState = HIGH →
      (update s io).1._longPressHandled = false) := by
  have hbtn := readEncoder_button s io
  cases hen : s._enabled
  · rw [update_disabled s io hen]
    refine ⟨fun h => h, fun h1 h2 => ?_⟩
    rw [h1] at h2; exact absurd h2 (by decide)
  · cases hb : s._hasButton
    · rw [update_withoutButton s io hen hb, hbtn.1, hbtn.2.2.2.2.1]
      refine ⟨fun h => h, fun h1 h2 => ?_⟩
      rw [h1] at h2; exact absurd h2 (by decide)
    · rw [update_withButton s io hen hb]
      have h := readButton_flag (readEncoder s io).1 io
      rw [hbtn.1, hbtn.2.2.2.2.1] at h
      exact h

/-- The two rotation timestamps after one `readEncoder` at a clock value not before the
rotation anchor. -/
theorem readEncoder_clock (s : EEncoder) (io : Platform)
    (hinv : s._lastRotationTime ≤ s._lastEncoderTime)
    (hnow : s._lastEncoderTime ≤ io.millis) :
    (readEncoder s io).1._lastRotationTime ≤ (readEncoder s io).1._lastEncoderTime ∧
    ((readEncoder s io).1._lastEncoderTime = s._lastEncoderTime ∨
      (readEncoder s io).1._lastEncoderTime = io.millis) := by
  simp only [readEncoder, applyAcceleration]
  split_ifs <;> simp <;> omega

theorem update_clock (s : EEncoder) (io : Platform)
    (hinv : s._lastRotationTime ≤ s._lastEncoderTime)
    (hnow : s._lastEncoderTime ≤ io.millis) :
    (update s io).1._lastRotationTime ≤ (update s io).1._lastEncoderTime ∧
    ((update s io).1._lastEncoderTime = s._lastEncoderTime ∨
      (update s io).1._lastEncoderTime = io.millis) := by
  cases hen : s._enabled
  · rw [update_disabled s io hen]
    exact ⟨hinv, Or.inl rfl⟩
  · have hu := update_rotation s io hen
    rw [hu.2.2.2.1, hu.2.2.2.2.1]
    exact readEncoder_clock s io hinv hnow

/-- Calls other than `update()` leave the rotation timestamps alone. -/
theorem call_clock (s : EEncoder) (c : Call)
    (hinv : s._lastRotationTime ≤ s._lastEncoderTime)
    (hnow : ∀ t ∈ clockReadings [c], s._lastEncoderTime ≤ t) :
    (call s c)._lastRotationTime ≤ (call s c)._lastEncoderTime ∧
    ((call s c)._lastEncoderTime = s._lastEncoderTime ∨
      (call s c)._lastEncoderTime ∈ clockReadings [c]) := by
  cases c with
  | update io =>
    have h := update_clock s io hinv (hnow io.millis (by simp [clockReadings]))
    exact ⟨h.1, h.2.imp id (fun e => by simp [clockReadings, call, e])⟩
  | enable enabled =>
    cases enabled
    · exact ⟨by simpa [call, enable] using hinv, Or.inl (by simp [call, enable])⟩
    · exact ⟨by simpa [call, enable] using hinv, Or.inl (by simp [call, enable])⟩
  | setEncoderHandler _ => exact ⟨hinv, Or.inl rfl⟩
  | setButtonHandler _ => exact ⟨hinv, Or.inl rfl⟩
  | setLongPressHandler _ => exact ⟨hinv, Or.inl rfl⟩
  | setDebounceInterval _ => exact ⟨hinv, Or.inl rfl⟩
  | setLongPressDuration _ => exact ⟨hinv, Or.inl rfl⟩
  | setAcceleration _ => exact ⟨hinv, Or.inl rfl⟩
  | setAccelerationRate _ => exact ⟨hinv, Or.inl rfl⟩

theorem clockReadings_cons (c : Call) (cs : List Call) :
    clockReadings (c :: cs) = clockReadings [c] ++ clockReadings cs := by
  cases c <;> simp [clockReadings]

/-- With a non-decreasing clock, the last-rotation time never passes the rotation anchor, and
the anchor is the starting one or one of the clock values seen. -/
theorem calls_clock (cs : List Call) :
    ∀ s : EEncoder, s._lastRotationTime ≤ s._lastEncoderTime →
      (∀ t ∈ clockReadings cs, s._lastEncoderTime ≤ t) →
      (clockReadings cs).Pairwise (fun a b => a ≤ b) →
      (calls s cs)._lastRotationTime ≤ (calls s cs)._lastEncoderTime ∧
      ((calls s cs)._lastEncoderTime = s._lastEncoderTime ∨
        (calls s cs)._lastEncoderTime ∈ clockReadings cs) := by
  induction cs with
  | nil => intro s hinv _ _; exact ⟨hinv, Or.inl rfl⟩
  | cons c cs ih =>
    intro s hinv hnow hmono
    rw [clockReadings_cons] at hnow hmono ⊢
    have hc := call_clock s c hinv (fun t ht => hnow t (List.mem_append_left _ ht))
    have hm := List.pairwise_append.mp hmono
    have hrec := ih (call s c) hc.1
      (fun t ht => by
        rcases hc.2 with e | e
        · rw [e]; exact hnow t (List.mem_append_right _ ht)
        · exact hm.2.2 _ e t ht)
      hm.2.1
    refine ⟨hrec.1, ?_⟩
    show (calls (call s c) cs)._lastEncoderTime = s._lastEncoderTime ∨ _
    rcases hrec.2 with e | e
    · rcases hc.2 with e2 | e2
      · exact Or.inl (e.trans e2)
      · exact Or.inr (List.mem_append_left _ (by
          show (calls (call s c) cs)._lastEncoderTime ∈ _
          rw [e]; exact e2))
    · exact Or.inr (List.mem_append_right _ e)

/-! ## Re-enabling -/

/-- What the first poll after re-enabling does.  `enable()` does not sample the pins: after
`enable(false)`, any polls made while disabled and `enable(true)`, the state is the state
before disabling with the increment zeroed.  The first `update()` then calls no rotation
handler and leaves the increment at 0 when the sample it reads equals the last sample stored
before disabling, or when the debounce window since the rotation anchor has not elapsed;
when the sample differs and the window has elapsed, it stores the increment decoded for the
transition from the stale stored sample to the sample read (after the acceleration block). -/
theorem reenable_resumes_from_stored_sample (s : EEncoder) (ios : List Platform)
    (io : Platform) :
    enable (runUpdates (enable s false) ios) true =
      { s with _enabled := true, _increment := 0 } ∧
    ((getEncoderState s io = s._lastEncoderState ∨
        sub32 io.millis s._lastEncoderTime < s._debounceInterval) →
      rotationEvents (update (enable (runUpdates (enable s false) ios) true) io).2 = [] ∧
      getIncrement (update (enable (runUpdates (enable s false) ios) true) io).1 = 0) ∧
    (getEncoderState s io ≠ s._lastEncoderState →
      s._debounceInterval ≤ sub32 io.millis s._lastEncoderTime →
      getIncrement (update (enable (runUpdates (enable s false) ios) true) io).1 =
        if decodeIncrement (combined s._lastEncoderState (getEncoderState s io)) ≠ 0 ∧
            s._accelerationEnabled = true ∧
            sub32 io.millis s._lastRotationTime < ACCELERATION_THRESHOLD_MS
        then wrap8 (decodeIncrement (combined s._lastEncoderState (getEncoderState s io)) *
          (s._accelerationRate : Int))
        else decodeIncrement (combined s._lastEncoderState (getEncoderState s io))) := by
  have hstate : enable (runUpdates (enable s false) ios) true =
      { s with _enabled := true, _increment := 0 } := by
    rw [runUpdates_disabled _ (by simp [enable])]
    simp [enable]
  refine ⟨hstate, ?_, ?_⟩
  · rw [hstate]
    intro h
    by_cases hch : getEncoderState s io = s._lastEncoderState
    · have hu := update_unchanged { s with _enabled := true, _increment := 0 } io rfl hch
      exact ⟨hu.2.2.2.2, hu.1⟩
    · have ht := h.resolve_left hch
      have hu := update_rejected { s with _enabled := true, _increment := 0 } io rfl hch ht
      exact ⟨hu.2.2.2.2, hu.1⟩
  · rw [hstate]
    intro hch ht
    exact update_accepted_increment { s with _enabled := true, _increment := 0 } io rfl hch ht

/-- Witness for `reenable_resumes_from_stored_sample`: the pins go to 01 and back to 00 while
the instance is disabled. -/
theorem reenable_resumes_from_stored_sample_witness :
    rotationEvents (update (enable (runUpdates (enable
      (setEncoderHandler (withButton 2 3 4 (reading false false true 0)) true) false)
      [reading false true true 20]) true) (reading false false true 50)).2 = [] :=
  ((reenable_resumes_from_stored_sample
    (setEncoderHandler (withButton 2 3 4 (reading false false true 0)) true)
    [reading false true true 20] (reading false false true 50)).2.1
    (Or.inl (by decide))).1

/-- C11 (the code at the failing input): a fresh instance (sample 00) with a rotation handler
is disabled, the pins move to 01 while it is disabled, and it is re-enabled; the first
`update()`, reading the unchanged pins 01 at t=50, decodes the transition 00->01 that it
missed, calls the rotation handler with `+1` and leaves the increment at 1.  `enable(true)`
does not reread `_lastEncoderState` as the constructors do. -/
theorem reenable_decodes_stale_transition :
    updateLog (enable (runUpdates (enable
      (setEncoderHandler (withButton 2 3 4 (reading false false true 0)) true) false)
      [reading false true true 20]) true) [reading false true true 50]
      = [[Event.rotation 1]] ∧
    getIncrement (update (enable (runUpdates (enable
      (setEncoderHandler (withButton 2 3 4 (reading false false true 0)) true) false)
      [reading false true true 20]) true) (reading false true true 50)).1 = 1 ∧
    ¬ (rotationEvents (update (enable (runUpdates (enable
        (setEncoderHandler (withButton 2 3 4 (reading false false true 0)) true) false)
        [reading false true true 20]) true) (reading false true true 50)).2 = [] ∧
      getIncrement (update (enable (runUpdates (enable
        (setEncoderHandler (withButton 2 3 4 (reading false false true 0)) true) false)
        [reading false true true 20]) true) (reading false true true 50)).1 = 0) := by
  refine ⟨by decide, by decide, by decide⟩

/-! ## Button debounce anchor -/

/-- The button debounce anchor on an enabled instance with a button.  (1) A poll whose raw
level differs from the raw level of the previous poll sets the anchor to the clock value it
reads at line 161.  (2) A poll changes the debounced level, or calls the press handler, only
if the clock value of its debounce test (line 165) is at least the debounce window after the
anchor as that poll leaves it.  (3) A poll that observes a raw change neither changes the
debounced level nor calls the press handler when the clock advances by less than the
debounce window between its lines 161 and 165.  (4) A raw change seen at poll `p1`, still
seen at the polls `mids`, and reverted at poll `pr`, leaves the debounced level unchanged
after every one of these polls when every debounce test up to the revert reads less than the
debounce window after the anchor then in force (the one set by `p1`, for `pr` its own). -/
theorem button_debounce_restarts_on_flicker (s : EEncoder) (hen : s._enabled = true)
    (hb : s._hasButton = true) :
    (∀ io : Platform, io.digitalRead s._buttonPin ≠ s._lastButtonState →
      (update s io).1._buttonStateChangeTime = io.millisChange) ∧
    (∀ io : Platform,
      ((update s io).1._buttonState ≠ s._buttonState ∨
        0 < (update s io).2.count Event.press) →
      s._debounceInterval ≤
        sub32 io.millisDebounce (update s io).1._buttonStateChangeTime) ∧
    (∀ io : Platform, io.digitalRead s._buttonPin ≠ s._lastButtonState →
      sub32 io.millisDebounce io.millisChange < s._debounceInterval →
        (update s io).1._buttonState = s._buttonState ∧
        (update s io).2.count Event.press = 0) ∧
    (∀ (p1 : Platform) (mids : List Platform) (pr : Platform),
      p1.digitalRead s._buttonPin ≠ s._lastButtonState →
      sub32 p1.millisDebounce p1.millisChange < s._debounceInterval →
      (∀ q ∈ mids, q.digitalRead s._buttonPin = p1.digitalRead s._buttonPin ∧
        sub32 q.millisDebounce p1.millisChange < s._debounceInterval) →
      pr.digitalRead s._buttonPin = s._lastButtonState →
      sub32 pr.millisDebounce pr.millisChange < s._debounceInterval →
      (∀ pre post, mids = pre ++ post →
        (runUpdates s (p1 :: pre))._buttonState = s._buttonState) ∧
      (runUpdates s (p1 :: (mids ++ [pr])))._buttonState = s._buttonState) := by
  have hflick : ∀ io : Platform, io.digitalRead s._buttonPin ≠ s._lastButtonState →
      sub32 io.millisDebounce io.millisChange < s._debounceInterval →
        (update s io).1._buttonState = s._buttonState ∧
        (update s io).2.count Event.press = 0 := by
    intro io hne hlt
    have h := update_commit s io hen hb
    simp only [hne, ne_eq, not_false_eq_true, if_true, Nat.not_le.mpr hlt, false_and,
      if_false] at h
    exact ⟨h.2.2.1, h.2.2.2⟩
  refine ⟨?_, ?_, hflick, ?_⟩
  · intro io hne
    have h := update_commit s io hen hb
    rw [h.2.1, if_pos hne]
  · intro io hchg
    have h := update_commit s io hen hb
    rw [h.2.1]
    by_contra hlt
    simp only [hlt, false_and, if_false] at h
    rcases hchg with hchg | hchg
    · exact hchg h.2.2.1
    · rw [h.2.2.2] at hchg; exact Nat.lt_irrefl 0 hchg
  · intro p1 mids pr hne hlt1 hmids hpr hltr
    have hc := update_config s p1
    have h1 := update_commit s p1 hen hb
    rw [if_pos hne] at h1
    have hbs := (hflick p1 hne hlt1).1
    have hen1 : (update s p1).1._enabled = true := by rw [hc.2.2.2.2.2.2.2.2.2.2.2, hen]
    have hb1 : (update s p1).1._hasButton = true := by rw [hc.2.2.2.1, hb]
    have key : ∀ pre : List Platform, (∀ q ∈ pre, q ∈ mids) →
        (runUpdates (update s p1).1 pre)._enabled = true ∧
        (runUpdates (update s p1).1 pre)._hasButton = true ∧
        (runUpdates (update s p1).1 pre)._buttonPin = s._buttonPin ∧
        (runUpdates (update s p1).1 pre)._debounceInterval = s._debounceInterval ∧
        (runUpdates (update s p1).1 pre)._lastButtonState = p1.digitalRead s._buttonPin ∧
        (runUpdates (update s p1).1 pre)._buttonStateChangeTime = p1.millisChange ∧
        (runUpdates (update s p1).1 pre)._buttonState = s._buttonState := by
      intro pre hsub
      have hr := runUpdates_within_window pre (p1.digitalRead s._buttonPin) p1.millisChange
        (update s p1).1 hen1 hb1 h1.1 h1.2.1
        (fun q hq => by rw [hc.2.2.1, hc.2.2.2.2.1]; exact hmids q (hsub q hq))
      rw [hc.2.2.1, hc.2.2.2.2.1, hbs] at hr
      exact hr
    refine ⟨?_, ?_⟩
    · intro pre post hsplit
      exact (key pre
        (fun q hq => by rw [hsplit]; exact List.mem_append_left post hq)).2.2.2.2.2.2
    · have hk := key mids (fun q hq => hq)
      show (runUpdates (update s p1).1 (mids ++ [pr]))._buttonState = s._buttonState
      rw [runUpdates_snoc]
      have hr := update_commit (runUpdates (update s p1).1 mids) pr hk.1 hk.2.1
      rw [hk.2.2.1, hk.2.2.2.2.1, hk.2.2.2.1, hk.2.2.2.2.2.2, hpr] at hr
      have hne2 : s._lastButtonState ≠ p1.digitalRead s._buttonPin := fun e => hne e.symm
      simp only [hne2, ne_eq, not_false_eq_true, if_true, Nat.not_le.mpr hltr, false_and,
        if_false] at hr
      exact hr.2.2.1

/-- Witness for `button_debounce_restarts_on_flicker`: the button of a fresh instance reads low
at t=100 and t=104 and high again at t=108. -/
theorem button_debounce_restarts_on_flicker_witness :
    (runUpdates (setButtonHandler (withButton 2 3 4 (reading false false true 0)) true)
      (reading false false false 100 ::
        ([reading false false false 104] ++ [reading false false true 108])))._buttonState
      = HIGH :=
  ((button_debounce_restarts_on_flicker
    (setButtonHandler (withButton 2 3 4 (reading false false true 0)) true)
    (by decide) (by decide)).2.2.2
    (reading false false false 100) [reading false false false 104]
    (reading false false true 108) (by decide) (by decide) (by decide) (by decide)
    (by decide)).2

/-- C12 (the code at the failing input): debounce window 1 ms, press handler registered, fresh
instance (debounced and last raw level high).  The poll that first reads the button low gets
100 from `millis()` at line 161, 101 at line 165 and 102 at line 172: it observes the raw
change, sets the anchor to 100, and in the same poll commits the change (the debounced level
becomes low, press-onset time 102) and calls the press handler.  The same poll with no clock
advance commits nothing. -/
theorem observing_poll_commits_when_clock_ticks :
    0 < (setDebounceInterval
      (setButtonHandler (withButton 2 3 4 (reading false false true 0)) true)
      1)._debounceInterval ∧
    (readingTicks false false false 100 100 101 102 102).digitalRead
      (setDebounceInterval
        (setButtonHandler (withButton 2 3 4 (reading false false true 0)) true)
        1)._buttonPin ≠
      (setDebounceInterval
        (setButtonHandler (withButton 2 3 4 (reading false false true 0)) true)
        1)._lastButtonState ∧
    buttonFields (update (setDebounceInterval
        (setButtonHandler (withButton 2 3 4 (reading false false true 0)) true) 1)
      (readingTicks false false false 100 100 101 102 102)).1
      = (LOW, LOW, 100, 102, false) ∧
    (update (setDebounceInterval
        (setButtonHandler (withButton 2 3 4 (reading false false true 0)) true) 1)
      (readingTicks false false false 100 100 101 102 102)).2 = [Event.press] ∧
    buttonFields (update (setDebounceInterval
        (setButtonHandler (withButton 2 3 4 (reading false false true 0)) true) 1)
      (reading false false false 100)).1 = (HIGH, LOW, 100, 0, false) ∧
    (update (setDebounceInterval
        (setButtonHandler (withButton 2 3 4 (reading false false true 0)) true) 1)
      (reading false false false 100)).2 = [] := by
  refine ⟨by decide, by decide, by decide, by decide, by decide, by decide⟩

/-! ## Last-rotation-time anchor -/

/-- C13 (as amended): on an `update()` in which a debounce-accepted transition decodes to a
non-zero increment, `_lastRotationTime` becomes the time of that poll when acceleration is
enabled, whether or not the multiplier was applied (for every elapsed time), and is left
unchanged when acceleration is disabled. -/
theorem lastRotationTime_anchor (s : EEncoder) (io : Platform) (hen : s._enabled = true)
    (hch : getEncoderState s io ≠ s._lastEncoderState)
    (ht : s._debounceInterval ≤ sub32 io.millis s._lastEncoderTime)
    (hstep : decodeIncrement (combined s._lastEncoderState (getEncoderState s io)) ≠ 0) :
    (update s io).1._lastRotationTime =
      if s._accelerationEnabled = true then io.millis else s._lastRotationTime := by
  cases hacc : s._accelerationEnabled
  · rw [(update_accepted_plain s io hen hacc hch ht).2.2.2.1]
    simp
  · rw [(update_accepted_accel s io hen hacc hch ht hstep).2.2.2]
    simp

/-- Witness for `lastRotationTime_anchor`: acceleration on, one clockwise step at t=150, more
than 100 ms after the previous anchor, so the multiplier is not applied. -/
theorem lastRotationTime_anchor_witness :
    (update (setAcceleration (withButton 2 3 4 (reading false false true 0)) true)
      (reading false true true 150)).1._lastRotationTime = 150 ∧
    (update (setAcceleration (withButton 2 3 4 (reading false false true 0)) true)
      (reading false true true 150)).1._increment = 1 :=
  ⟨(lastRotationTime_anchor
      (setAcceleration (withButton 2 3 4 (reading false false true 0)) true)
      (reading false true true 150) (by decide) (by decide) (by decide) (by decide)).trans
      (by decide), by decide⟩

/-- C13 (counterexample to the statement as written): on a fresh instance, acceleration off,
the poll reading sample 01 at t=15 passes the debounce gate and decodes to `+1`, and
`_lastRotationTime` is still 0 after it, not 15. -/
theorem lastRotationTime_stale_without_acceleration :
    (update (withButton 2 3 4 (reading false false true 0))
      (reading false true true 15)).1._increment = 1 ∧
    (update (withButton 2 3 4 (reading false false true 0))
      (reading false true true 15)).1._lastEncoderTime = 15 ∧
    (update (withButton 2 3 4 (reading false false true 0))
      (reading false true true 15)).1._lastRotationTime = 0 ∧
    (update (withButton 2 3 4 (reading false false true 0))
      (reading false true true 15)).1._lastRotationTime ≠ (reading false true true 15).millis := by
  refine ⟨by decide, by decide, by decide, by decide⟩

/-! ## Handlers called by one poll -/

/-- C14: one `update()` calls the rotation handler at most once, the press handler at most
once and the long-press handler at most once, in the order rotation, press, long-press: the
handlers called form a sublist of `[rotation, press, longPress]`, so at most three calls. -/
theorem bounded_callbacks_per_poll (s : EEncoder) (io : Platform) :
    (∃ n : Int, List.Sublist (update s io).2
      [Event.rotation n, Event.press, Event.longPress]) ∧
    (update s io).2.length ≤ 3 ∧
    (rotationEvents (update s io).2).length ≤ 1 ∧
    (update s io).2.count Event.press ≤ 1 ∧
    (update s io).2.count Event.longPress ≤ 1 := by
  cases hen : s._enabled
  · rw [update_disabled s io hen]
    exact ⟨⟨0, by simp⟩, by simp, by simp [rotationEvents], by simp, by simp⟩
  · cases hb : s._hasButton
    · rw [update_withoutButton s io hen hb]
      refine ⟨⟨(readEncoder s io).1._increment, ?_⟩, ?_⟩
      · rcases readEncoder_events s io with h | ⟨h, -⟩ <;> rw [h] <;> simp
      · rcases readEncoder_events s io with h | ⟨h, -⟩ <;> rw [h] <;> simp [rotationEvents]
    · rw [update_withButton s io hen hb]
      refine ⟨⟨(readEncoder s io).1._increment, ?_⟩, ?_⟩
      · rcases readEncoder_events s io with h | ⟨h, -⟩ <;>
          rcases readButton_events (readEncoder s io).1 io with h2 | h2 | h2 | h2 <;>
          rw [h, h2] <;> simp
      · rcases readEncoder_events s io with h | ⟨h, -⟩ <;>
          rcases readButton_events (readEncoder s io).1 io with h2 | h2 | h2 | h2 <;>
          rw [h, h2] <;> simp [rotationEvents]

/-! ## Instances without a button -/

/-- C15: an instance built by the two-pin constructor, after any sequence of calls of the
public interface (so whatever handlers are registered), has no button; its button state is
still the constructed one (debounced level and last raw level high, both timestamps 0, flag
clear); and every `update()`, whatever the pin levels and the time, leaves all button state
unchanged and calls neither the press nor the long-press handler. -/
theorem two_pin_instance_ignores_button (pinA pinB : Nat) (io0 : Platform) (cs : List Call)
    (io : Platform) :
    (calls (withoutButton pinA pinB io0) cs)._hasButton = false ∧
    buttonFields (calls (withoutButton pinA pinB io0) cs) = (HIGH, HIGH, 0, 0, false) ∧
    buttonFields (update (calls (withoutButton pinA pinB io0) cs) io).1 =
      buttonFields (calls (withoutButton pinA pinB io0) cs) ∧
    (∀ e ∈ (update (calls (withoutButton pinA pinB io0) cs) io).2,
      e ≠ Event.press ∧ e ≠ Event.longPress) := by
  have h := calls_noButton cs (withoutButton pinA pinB io0) rfl
  have hu := update_noButton (calls (withoutButton pinA pinB io0) cs) io h.1
  exact ⟨h.1, h.2, hu.1, hu.2⟩

/-! ## Decoder symmetry and the rotation handler -/

/-- C16: for all 2-bit samples `p` and `c`, the base increment decoded for `p -> c` is the
negation of the one decoded for `c -> p`, and it is non-zero exactly when `p` and `c` differ
in exactly one bit (the high bit is `p / 2`, the low bit is `p % 2`). -/
theorem decode_antisymmetric :
    (∀ p c : Fin 4,
      decodeIncrement (combined p.val c.val) = -decodeIncrement (combined c.val p.val)) ∧
    (∀ p c : Fin 4,
      decodeIncrement (combined p.val c.val) ≠ 0 ↔
        ((p.val / 2 ≠ c.val / 2 ∧ p.val % 2 = c.val % 2) ∨
          (p.val / 2 = c.val / 2 ∧ p.val % 2 ≠ c.val % 2))) := by
  constructor <;> decide

/-- C17: whenever an `update()` calls the rotation handler, the value `getIncrement()` returns
at the call is not 0, and it is the increment the poll stores; this holds for every state, so
for every sample, clock value, acceleration flag and acceleration rate. -/
theorem rotation_callback_sees_nonzero (s : EEncoder) (io : Platform) (n : Int)
    (h : Event.rotation n ∈ (update s io).2) :
    n ≠ 0 ∧ n = getIncrement (update s io).1 := by
  cases hen : s._enabled
  · rw [update_disabled s io hen] at h
    simp at h
  · have hu := update_rotation s io hen
    have hm := mem_rotationEvents n _ h
    rw [hu.2.2.2.2.2] at hm
    rcases readEncoder_events s io with he | ⟨he, hne⟩
    · rw [he] at hm; simp at hm
    · rw [he] at hm
      simp only [List.mem_singleton, Event.rotation.injEq] at hm
      rw [hm]
      exact ⟨hne, hu.1.symm⟩

/-- Witness for `rotation_callback_sees_nonzero`: acceleration on with rate 3, a clockwise step
at t=15. -/
theorem rotation_callback_sees_nonzero_witness :
    (3 : Int) ≠ 0 ∧
    (3 : Int) = getIncrement (update (setAccelerationRate (setAcceleration
      (setEncoderHandler (withButton 2 3 4 (reading false false true 0)) true) true) 3)
      (reading false true true 15)).1 :=
  rotation_callback_sees_nonzero
    (setAccelerationRate (setAcceleration
      (setEncoderHandler (withButton 2 3 4 (reading false false true 0)) true) true) 3)
    (reading false true true 15) 3 (by decide)

/-! ## Long-press flag -/

/-- C18: in every state reachable from a constructor by `update()`, `enable()`, the setters
and the handler registrations, a set long-press flag implies that the debounced button level
is pressed (low); and every `update()` that commits a release (level low before, high after)
leaves the flag clear. -/
theorem longPress_flag_implies_pressed :
    (∀ s : EEncoder, Reachable s → s._longPressHandled = true → s._buttonState = LOW) ∧
    (∀ (s : EEncoder) (io : Platform), s._buttonState = LOW →
      (update s io).1._buttonState = HIGH → (update s io).1._longPressHandled = false) := by
  refine ⟨?_, fun s io => (update_flag s io).2⟩
  intro s hs
  induction hs with
  | withButton pinA pinB buttonPin io => simp [withButton, initialised]
  | withoutButton pinA pinB io => simp [withoutButton, initialised]
  | update s io _ ih => exact (update_flag s io).1 ih
  | enable s enabled _ ih => cases enabled <;> simpa [enable] using ih
  | setEncoderHandler s callback _ ih => exact ih
  | setButtonHandler s callback _ ih => exact ih
  | setLongPressHandler s callback _ ih => exact ih
  | setDebounceInterval s intervalMs _ ih => exact ih
  | setLongPressDuration s durationMs _ ih => exact ih
  | setAcceleration s enabled _ ih => exact ih
  | setAccelerationRate s rate _ ih => exact ih

/-- Witness for `longPress_flag_implies_pressed`: a button held for 500 ms after the press
commit at t=10; the flag is set and the level is low. -/
theorem longPress_flag_implies_pressed_witness :
    (runUpdates (setLongPressHandler (withButton 2 3 4 (reading false false true 0)) true)
      [reading false false false 0, reading false false false 10,
        reading false false false 510])._longPressHandled = true ∧
    (runUpdates (setLongPressHandler (withButton 2 3 4 (reading false false true 0)) true)
      [reading false false false 0, reading false false false 10,
        reading false false false 510])._buttonState = LOW :=
  ⟨by decide,
    longPress_flag_implies_pressed.1
      (runUpdates (setLongPressHandler (withButton 2 3 4 (reading false false true 0)) true)
        [reading false false false 0, reading false false false 10,
          reading false false false 510])
      (Reachable.update _ _ (Reachable.update _ _ (Reachable.update _ _
        (Reachable.setLongPressHandler _ true (Reachable.withButton 2 3 4 _)))))
      (by decide)⟩

/-! ## Debounce window and acceleration threshold -/

/-- C19: starting from a freshly constructed instance, after any sequence of calls of the
public interface whose `update()` calls see non-decreasing clock values,
`_lastRotationTime <= _lastEncoderTime`; and the next `update()`, at a 32-bit clock value not
before the earlier ones, made while the instance is enabled and the debounce interval is at
least `ACCELERATION_THRESHOLD_MS`, that accepts a changed sample, stores the base increment of
the transition without the multiplier, a value in `{-1, 0, +1}`, whatever the acceleration
flag and rate. -/
theorem wide_debounce_silences_acceleration (s0 : EEncoder) (pinA pinB buttonPin : Nat)
    (io0 : Platform) (cs : List Call) (io : Platform)
    (hfresh : s0 = withButton pinA pinB buttonPin io0 ∨ s0 = withoutButton pinA pinB io0)
    (hmono : (clockReadings cs).Pairwise (fun a b => a ≤ b))
    (hnext : ∀ t ∈ clockReadings cs, t ≤ io.millis) (hclock : io.millis < 4294967296) :
    (calls s0 cs)._lastRotationTime ≤ (calls s0 cs)._lastEncoderTime ∧
    ((calls s0 cs)._enabled = true →
      ACCELERATION_THRESHOLD_MS ≤ (calls s0 cs)._debounceInterval →
      getEncoderState (calls s0 cs) io ≠ (calls s0 cs)._lastEncoderState →
      (calls s0 cs)._debounceInterval ≤ sub32 io.millis (calls s0 cs)._lastEncoderTime →
        (update (calls s0 cs) io).1._increment =
          decodeIncrement (combined (calls s0 cs)._lastEncoderState
            (getEncoderState (calls s0 cs) io)) ∧
        ((update (calls s0 cs) io).1._increment = 1 ∨
          (update (calls s0 cs) io).1._increment = -1 ∨
          (update (calls s0 cs) io).1._increment = 0)) := by
  have hrot0 : s0._lastRotationTime = 0 := by
    rcases hfresh with h | h <;> rw [h] <;> rfl
  have henc0 : s0._lastEncoderTime = 0 := by
    rcases hfresh with h | h <;> rw [h] <;> rfl
  have hinv := calls_clock cs s0 (by rw [hrot0, henc0])
    (fun t _ => by rw [henc0]; exact Nat.zero_le t) hmono
  refine ⟨hinv.1, ?_⟩
  intro hen hdb hch hacc
  have hle : (calls s0 cs)._lastEncoderTime ≤ io.millis := by
    rcases hinv.2 with e | e
    · rw [e, henc0]; exact Nat.zero_le _
    · exact hnext _ e
  have hinc := update_accepted_increment (calls s0 cs) io hen hch hacc
  have h1 := sub32_of_le io.millis (calls s0 cs)._lastEncoderTime hle hclock
  have h2 := sub32_of_le io.millis (calls s0 cs)._lastRotationTime
    (Nat.le_trans hinv.1 hle) hclock
  have hslow : ¬ sub32 io.millis (calls s0 cs)._lastRotationTime <
      ACCELERATION_THRESHOLD_MS := by
    have h3 := hinv.1
    rw [h1] at hacc
    rw [h2]
    omega
  rw [if_neg (fun h => hslow h.2.2)] at hinc
  exact ⟨hinc, by rw [hinc]; exact decode_values _⟩

/-- Witness for `wide_debounce_silences_acceleration`: debounce 100 ms, acceleration on with
rate 5, one step at t=100 and the next at t=200. -/
theorem wide_debounce_silences_acceleration_witness :
    (update (calls (withButton 2 3 4 (reading false false true 0))
      [Call.setDebounceInterval 100, Call.setAcceleration true,
        Call.update (reading false true true 100)])
      (reading true true true 200)).1._increment = 1 :=
  ((wide_debounce_silences_acceleration (withButton 2 3 4 (reading false false true 0))
    2 3 4 (reading false false true 0)
    [Call.setDebounceInterval 100, Call.setAcceleration true,
      Call.update (reading false true true 100)]
    (reading true true true 200) (Or.inl rfl) (by decide) (by decide) (by decide)).2
    (by decide) (by decide) (by decide) (by decide)).1.trans (by decide)

/-! ## Clock rollover -/

/-- C20: the anchor `a = _lastEncoderTime` and the poll time `n` are 32-bit readings of a
clock whose true elapsed time since the anchor is `e < 2^32`, so `n = (a + e) mod 2^32`
(possibly `n < a`).  Then the difference the gate computes is `e`, and a changed sample is
accepted (decoded, anchor moved to `n`) when `e >=` debounce interval and rejected (only
stored as the last sample) when `e <` debounce interval. -/
theorem rollover_safe_gate (s : EEncoder) (io : Platform) (e : Nat)
    (he : e < 4294967296)
    (hn : io.millis = (s._lastEncoderTime + e) % 4294967296)
    (hch : getEncoderState s io ≠ s._lastEncoderState) :
    sub32 io.millis s._lastEncoderTime = e ∧
    (s._debounceInterval ≤ e →
      readEncoder s io =
        ({ applyAcceleration { s with
              _encoderState := getEncoderState s io,
              _increment :=
                decodeIncrement (combined s._lastEncoderState (getEncoderState s io)) }
              io.millis with
            _lastEncoderTime := io.millis,
            _lastEncoderState := getEncoderState s io },
          if (applyAcceleration { s with
              _encoderState := getEncoderState s io,
              _increment :=
                decodeIncrement (combined s._lastEncoderState (getEncoderState s io)) }
              io.millis)._increment ≠ 0 ∧ s._encoderCallback = true
          then [Event.rotation (applyAcceleration { s with
              _encoderState := getEncoderState s io,
              _increment :=
                decodeIncrement (combined s._lastEncoderState (getEncoderState s io)) }
              io.millis)._increment]
          else [])) ∧
    (e < s._debounceInterval →
      readEncoder s io =
        ({ s with _encoderState := getEncoderState s io,
                  _lastEncoderState := getEncoderState s io }, [])) := by
  have hsub : sub32 io.millis s._lastEncoderTime = e := by
    rw [hn]; exact sub32_add_mod _ _ he
  refine ⟨hsub, ?_, ?_⟩
  · intro hdb
    exact readEncoder_accepted_eq s io hch (by rw [hsub]; exact hdb)
  · intro hdb
    exact readEncoder_rejected s io hch (by rw [hsub]; exact hdb)

/-- Witness for `rollover_safe_gate`: anchor 6 ms before the clock wraps, poll 20 ms later at
clock value 14; the changed sample passes the 10 ms gate and the anchor moves to 14. -/
theorem rollover_safe_gate_witness :
    sub32 (reading false true true 14).millis
      ({ withButton 2 3 4 (reading false false true 0) with
        _lastEncoderTime := 4294967290 })._lastEncoderTime = 20 ∧
    (readEncoder { withButton 2 3 4 (reading false false true 0) with
        _lastEncoderTime := 4294967290 } (reading false true true 14)).1._lastEncoderTime
      = 14 :=
  ⟨(rollover_safe_gate
    { withButton 2 3 4 (reading false false true 0) with _lastEncoderTime := 4294967290 }
    (reading false true true 14) 20 (by decide) (by decide) (by decide)).1, by decide⟩

end EEncoder
